import Mathlib

/-!
# Nex node: machine manager, payload cache and control listener

A shallow embedding of `internal/node/machine_mgr.go`, `internal/node/payload_cache.go`
and `internal/node/controlapi.go`.

Conventions of the embedding.

* A Go `error` handed to the node is an `Option String`: `none` is `nil`, `some msg` carries
  the text of the error. A method of the node that returns `error` ends in an `Outcome`: `nil`,
  an error, or a run-time panic.
* A `*runningFirecracker` is an index into `MachineManager.heap`; the map `allVMs` and the
  channel `warmVMs` hold such indices, so a write through one of them (`DeployWorkload`,
  `shutdown`) is seen through the other, as with Go pointers.
* A Go map is an association list read by `mapGet`, written by `mapSet`, cleared by `mapDelete`.
* What the bus, the object stores, the agent and the VM launcher answer is an explicit
  environment argument of the operation that asks; what the node sends out is recorded in the
  manager (`agentRequests`, `drained`, `published`, `internalCache`).
* Log lines are not modelled; a failure that the source only logs is not an input.
-/

namespace Nex

/-! ## Go strings and maps -/

/-- Cut a list of characters at every occurrence of `sep`, as `strings.Split` does for a
one-character separator: the result is never empty, and `n` separators give `n + 1` tokens. -/
def splitOnChar (sep : Char) : List Char → List (List Char)
  | [] => [[]]
  | c :: cs =>
    if c = sep then [] :: splitOnChar sep cs
    else
      match splitOnChar sep cs with
      | [] => [[c]]
      | t :: ts => (c :: t) :: ts

/-- Go `strings.Split(s, sep)` for a separator of one character. -/
def Split (s : String) (sep : Char) : List String :=
  (splitOnChar sep s.data).map String.mk

/-- Go `strings.Trim(s, cutset)` for a cutset of one character: drops every leading and every
trailing occurrence of `c`. -/
def Trim (s : String) (c : Char) : String :=
  String.mk (((s.data.dropWhile (fun x => x == c)).reverse.dropWhile (fun x => x == c)).reverse)

/-- White space in the sense of Go `unicode.IsSpace`. -/
def isSpace (c : Char) : Bool :=
  let n := c.toNat
  (9 ≤ n && n ≤ 13) || n == 32 || n == 0x85 || n == 0xA0 || n == 0x1680 ||
  (0x2000 ≤ n && n ≤ 0x200A) || n == 0x2028 || n == 0x2029 || n == 0x202F ||
  n == 0x205F || n == 0x3000

/-- Go `strings.TrimSpace`. -/
def TrimSpace (s : String) : String :=
  String.mk (((s.data.dropWhile isSpace).reverse.dropWhile isSpace).reverse)

/-- Simple case folding of one rune, restricted to the runes that fold onto an ASCII letter or
digit: the upper-case ASCII letters, the long s (U+017F) and the Kelvin sign (U+212A). -/
def foldRune (c : Char) : Char :=
  if 65 ≤ c.toNat ∧ c.toNat ≤ 90 then Char.ofNat (c.toNat + 32)
  else if c.toNat = 0x17F then 's'
  else if c.toNat = 0x212A then 'k'
  else c

/-- Go `strings.EqualFold(s, t)`; exact whenever one of the two strings is ASCII, which is how
the node uses it (the second argument is the literal "v8" or "wasm"). -/
def EqualFold (s t : String) : Bool :=
  s.data.map foldRune == t.data.map foldRune

/-- Read of a Go map: `v, exists := m[k]`. -/
def mapGet {α : Type} (m : List (String × α)) (k : String) : Option α :=
  match m with
  | [] => none
  | (k', v) :: rest => if k' = k then some v else mapGet rest k

/-- Go `delete(m, k)`. -/
def mapDelete {α : Type} (m : List (String × α)) (k : String) : List (String × α) :=
  m.filter (fun kv => decide (kv.1 ≠ k))

/-- Go `m[k] = v`. -/
def mapSet {α : Type} (m : List (String × α)) (k : String) (v : α) : List (String × α) :=
  (k, v) :: mapDelete m k

/-! ## Data model -/

/-- The decoded workload claims (`jwt.GenericClaims`): the fields the node reads, and the
content hash the claim carries. -/
structure GenericClaims where
  Subject : String
  Issuer : String
  Hash : String
deriving DecidableEq, Repr, Inhabited

/-- The artifact location (`url.URL`): the fields the node reads. -/
structure URL where
  Host : String
  Path : String
deriving DecidableEq, Repr, Inhabited

/-- The operator-facing deploy request, `controlapi.DeployRequest`. -/
structure controlapi.DeployRequest where
  Argv : List String
  Description : Option String
  WorkloadType : Option String
  Location : URL
  JsDomain : Option String
  TriggerSubjects : List String
  WorkloadEnvironment : List (String × String)
  DecodedClaims : GenericClaims
deriving DecidableEq, Repr, Inhabited

/-- The operator-facing stop request, `controlapi.StopRequest`. -/
structure controlapi.StopRequest where
  WorkloadId : String
  WorkloadJwt : String
deriving DecidableEq, Repr, Inhabited

/-- The agent-facing deploy request, `agentapi.DeployRequest`, with the fields set at
`controlapi.go:217`. -/
structure agentapi.DeployRequest where
  Argv : List String
  DecodedClaims : GenericClaims
  Description : Option String
  Environment : List (String × String)
  Hash : String
  Namespace : Option String
  TotalBytes : Int
  TriggerSubjects : List String
  WorkloadName : Option String
  WorkloadType : Option String
deriving DecidableEq, Repr, Inhabited

/-- The agent reply to a deploy request, `agentapi.DeployResponse`. -/
structure agentapi.DeployResponse where
  Accepted : Bool
  Message : Option String
deriving DecidableEq, Repr, Inhabited

/-- A VM record. `VcpuCount` and `MemSizeMib` stand for `*vm.machine.Cfg.MachineCfg.VcpuCount`
and `*vm.machine.Cfg.MachineCfg.MemSizeMib`, which the launcher sets. `shutdownCalled` is a
ghost field: it records that `vm.shutdown()` has run on this record. -/
structure runningFirecracker where
  vmmID : String
  VcpuCount : Int
  MemSizeMib : Int
  deployRequest : Option agentapi.DeployRequest
  namespace_ : String
  machineStarted : Nat
  workloadStarted : Nat
  shutdownCalled : Bool
deriving DecidableEq, Repr, Inhabited

/-- A subscription on the external bus. -/
structure Subscription where
  Subject : String
deriving DecidableEq, Repr, Inhabited

/-- The instruments of `Telemetry` that the machine manager writes. -/
inductive Counter where
  | vmCounter
  | workloadCounter
  | deployedByteCounter
  | allocatedVCPUCounter
  | allocatedMemoryCounter
deriving DecidableEq, Repr, Inhabited

/-- An attribute set of a measurement, over the two keys the manager uses. -/
structure AttrSet where
  ns : Option String
  workload_type : Option String
deriving DecidableEq, Repr, Inhabited

/-- The empty attribute set: an `Add` without options. -/
def AttrSet.none : AttrSet := ⟨Option.none, Option.none⟩

/-- The option `metric.WithAttributes(attribute.String("namespace", v))`. -/
def AttrSet.withNamespace (v : String) : AttrSet := ⟨some v, Option.none⟩

/-- The option `metric.WithAttributes(attribute.String("workload_type", v))`. -/
def AttrSet.withWorkloadType (v : String) : AttrSet := ⟨Option.none, some v⟩

/-- Several `WithAttributes` options on one `Add` are merged, a later value for a key
replacing an earlier one. -/
def AttrSet.merge (a b : AttrSet) : AttrSet :=
  ⟨match b.ns with
    | some v => some v
    | Option.none => a.ns,
   match b.workload_type with
    | some v => some v
    | Option.none => a.workload_type⟩

/-- One call `counter.Add(ctx, value, options...)`. -/
structure Measurement where
  counter : Counter
  attrs : AttrSet
  value : Int
deriving DecidableEq, Repr, Inhabited

/-- The value of an up-down counter for one attribute set: the sum of what was added. -/
def counterValue (t : List Measurement) (c : Counter) (a : AttrSet) : Int :=
  match t with
  | [] => 0
  | x :: rest =>
    (if x.counter = c ∧ x.attrs = a then x.value else 0) + counterValue rest c a

/-- What the manager publishes on the external bus when a machine stops. -/
inductive Publication where
  | workloadStopped (ns name vmid : String)
  | log (subject text machineId : String)
deriving DecidableEq, Repr, Inhabited

/-- The node configuration, `NodeConfiguration`: the fields the node reads. -/
structure NodeConfiguration where
  MachinePoolSize : Nat
  WorkloadTypes : List String
  ValidIssuers : List String
deriving DecidableEq, Repr, Inhabited

/-- The machine manager. `warmVMs` is the buffer of the channel, oldest first, and
`warmClosed` says whether the channel has been closed. `agentRequests`, `drained`,
`published` and `internalCache` record what the manager has sent out. -/
structure MachineManager where
  closing : Nat
  config : NodeConfiguration
  publicKey : String
  heap : List runningFirecracker
  allVMs : List (String × Nat)
  warmVMs : List Nat
  warmClosed : Bool
  vmsubz : List (String × List Subscription)
  t : List Measurement
  agentRequests : List String
  drained : List Subscription
  published : List Publication
  internalCache : List (String × List Nat)
deriving DecidableEq, Repr, Inhabited

/-- The manager that `NewMachineManager` builds: empty maps, an empty open channel. -/
def NewMachineManager (config : NodeConfiguration) (publicKey : String) : MachineManager :=
  { closing := 0, config := config, publicKey := publicKey, heap := [], allVMs := [],
    warmVMs := [], warmClosed := false, vmsubz := [], t := [], agentRequests := [],
    drained := [], published := [], internalCache := [] }

/-- The record a `*runningFirecracker` points to. -/
def MachineManager.vmAt (m : MachineManager) (p : Nat) : runningFirecracker :=
  m.heap.getD p default

/-- A write through a `*runningFirecracker`. -/
def MachineManager.setVM (m : MachineManager) (p : Nat) (vm : runningFirecracker) :
    MachineManager :=
  { m with heap := m.heap.set p vm }

/-- The call `counter.Add(m.ctx, value, options...)` on the manager's telemetry. -/
def MachineManager.add (m : MachineManager) (c : Counter) (value : Int) (a : AttrSet) :
    MachineManager :=
  { m with t := m.t ++ [⟨c, a, value⟩] }

/-- How a Go function that returns `error` ends: with `nil`, with an error, or in a run-time
panic (a nil pointer dereference, closing a closed channel), in which case it does not
return. -/
inductive Outcome where
  | nil
  | err (msg : String)
  | panicked
deriving DecidableEq, Repr, Inhabited

/-- What the external bus answers while a machine is stopped: the error of
`PublishCloudEvent` and the error of `m.nc.Flush()`, for the machine of the given id. -/
structure StopEnv where
  cloudEventErr : String → Option String
  flushErr : String → Option String

/-- The answer to `m.ncInternal.Request(subject, bytes, 1*time.Second)` of `DeployWorkload`,
with the reply already passed through `json.Unmarshal`. -/
inductive AgentReply where
  | deadlineExceeded
  | failed (err : String)
  | malformed (err : String)
  | reply (resp : agentapi.DeployResponse)
deriving DecidableEq, Repr, Inhabited

/-- What `DeployWorkload` is answered: the error of `json.Marshal(request)`, the clock, the
agent, `m.nc.Subscribe` for each trigger subject, and the bus during a stop. -/
structure DeployEnv where
  marshalErr : Option String
  now : Nat
  agent : AgentReply
  subscribe : String → Except String Subscription
  stop : StopEnv

/-- What `CacheWorkload` is answered. `fetch jsDomain bucket key` is the outcome of lines
42 to 75 (JetStream context, source object store, `GetInfo`, `GetFile`, `os.Open`,
`io.ReadAll`): the bytes read back, or the error returned. `jsInternalErr` and `cacheErr`
are the errors of lines 79 and 85, `putBytes` is `cache.PutBytes` giving `obj.Size`, and
`sha256hex` is `hex.EncodeToString` of the SHA-256 digest. -/
structure CacheEnv where
  fetch : Option String → String → String → Except String (List Nat)
  jsInternalErr : Option String
  cacheErr : Option String
  putBytes : String → List Nat → Except String Nat
  sha256hex : List Nat → String

/-- How `CacheWorkload` ends: `(obj.Size, &workloadHashString, nil)`, `(0, nil, err)`, or a
panic. -/
inductive CacheResult where
  | ok (size : Nat) (hash : String)
  | err (msg : String)
  | panicked
deriving DecidableEq, Repr, Inhabited

/-- What `createAndStartVM` hands to the warming loop: a record that carries no deployment. -/
structure Launched where
  vmmID : String
  VcpuCount : Int
  MemSizeMib : Int
  machineStarted : Nat
deriving DecidableEq, Repr, Inhabited

/-- The record of a freshly launched VM. -/
def Launched.record (l : Launched) : runningFirecracker :=
  { vmmID := l.vmmID, VcpuCount := l.VcpuCount, MemSizeMib := l.MemSizeMib,
    deployRequest := none, namespace_ := "", machineStarted := l.machineStarted,
    workloadStarted := 0, shutdownCalled := false }

/-! ## `controlapi.go`: subject parsing -/

/-- The function `extractNamespace` (controlapi.go:370). -/
def extractNamespace (subject : String) : String × Option String :=
  let tokens := Split subject '.'
  if h : tokens.length < 3 then
    ("", some "Invalid subject - could not detect a namespace")
  else
    (tokens[2], none)

/-! ## `machine_mgr.go` -/

/-- The constant `LogSubjectPrefix`. -/
def LogSubjectPrefix : String := "$NEX.logs"

/-- The method `publishMachineStopped` (machine_mgr.go:459). -/
def publishMachineStopped (m : MachineManager) (vm : runningFirecracker) (env : StopEnv) :
    MachineManager × Option String :=
  match vm.deployRequest with
  | none => (m, some "machine stopped event was not published")
  | some dr =>
    let workloadName := TrimSpace dr.DecodedClaims.Subject
    if workloadName.length > 0 then
      match env.cloudEventErr vm.vmmID with
      | some e => (m, some e)
      | none =>
        let subject := LogSubjectPrefix ++ "." ++ vm.namespace_ ++ "." ++ m.publicKey ++ "." ++
          workloadName ++ "." ++ vm.vmmID
        ({ m with published := m.published ++
            [Publication.workloadStopped vm.namespace_ workloadName vm.vmmID,
             Publication.log subject "Workload stopped" vm.vmmID] },
         env.flushErr vm.vmmID)
    else (m, none)

/-- The method `StopMachine` (machine_mgr.go:258). -/
def StopMachine (m : MachineManager) (vmID : String) (env : StopEnv) :
    MachineManager × Outcome :=
  match mapGet m.allVMs vmID with
  | none => (m, Outcome.err ("failed to stop machine " ++ vmID))
  | some p =>
    let vm := m.vmAt p
    -- the undeploy request, for a bound VM; its error is only logged
    let m1 : MachineManager :=
      match vm.deployRequest with
      | some _ =>
        { m with agentRequests := m.agentRequests ++ ["agentint." ++ vm.vmmID ++ ".undeploy"] }
      | none => m
    -- drain the subscriptions of vmsubz[vmID]
    let m2 : MachineManager :=
      { m1 with drained := m1.drained ++ (mapGet m1.vmsubz vmID).getD [] }
    -- vm.shutdown(); delete(m.allVMs, vmID); delete(m.vmsubz, vmID)
    let vm1 : runningFirecracker := { vm with shutdownCalled := true }
    let m3 : MachineManager := m2.setVM p vm1
    let m4 : MachineManager :=
      { m3 with allVMs := mapDelete m3.allVMs vmID, vmsubz := mapDelete m3.vmsubz vmID }
    let m5 : MachineManager := (publishMachineStopped m4 vm1 env).1
    match vm1.deployRequest with
    | some dr =>
      match dr.WorkloadType with
      | none => (m5, Outcome.panicked)
      | some wt =>
        let m6 := m5.add Counter.workloadCounter (-1) (AttrSet.withWorkloadType wt)
        let m7 := m6.add Counter.workloadCounter (-1)
          ((AttrSet.withWorkloadType wt).merge (AttrSet.withNamespace vm1.namespace_))
        let m8 := m7.add Counter.deployedByteCounter (dr.TotalBytes * -1) AttrSet.none
        let m9 := m8.add Counter.deployedByteCounter (dr.TotalBytes * -1)
          (AttrSet.withNamespace vm1.namespace_)
        let m10 := m9.add Counter.vmCounter (-1) AttrSet.none
        let m11 := m10.add Counter.allocatedVCPUCounter (vm1.VcpuCount * -1) AttrSet.none
        let m12 := m11.add Counter.allocatedVCPUCounter (vm1.VcpuCount * -1)
          (AttrSet.withNamespace vm1.namespace_)
        let m13 := m12.add Counter.allocatedMemoryCounter (vm1.MemSizeMib * -1) AttrSet.none
        let m14 := m13.add Counter.allocatedMemoryCounter (vm1.MemSizeMib * -1)
          (AttrSet.withNamespace vm1.namespace_)
        (m14, Outcome.nil)
    | none =>
      let m10 := m5.add Counter.vmCounter (-1) AttrSet.none
      let m11 := m10.add Counter.allocatedVCPUCounter (vm1.VcpuCount * -1) AttrSet.none
      let m12 := m11.add Counter.allocatedVCPUCounter (vm1.VcpuCount * -1)
        (AttrSet.withNamespace vm1.namespace_)
      let m13 := m12.add Counter.allocatedMemoryCounter (vm1.MemSizeMib * -1) AttrSet.none
      let m14 := m13.add Counter.allocatedMemoryCounter (vm1.MemSizeMib * -1)
        (AttrSet.withNamespace vm1.namespace_)
      (m14, Outcome.nil)

/-- The method `LookupMachine` (machine_mgr.go:308): the pointer, or `nil`. -/
def LookupMachine (m : MachineManager) (vmId : String) : Option Nat :=
  mapGet m.allVMs vmId

/-- Modelled from the spec: `agentapi.DeployRequest.SupportsTriggerSubjects` is not among the
source files. The workload type supports triggers (it is "v8" or "wasm", compared without
regard to case) and trigger subjects are present. -/
def agentapi.DeployRequest.SupportsTriggerSubjects (r : agentapi.DeployRequest) : Bool :=
  match r.WorkloadType with
  | none => false
  | some wt => (EqualFold wt "v8" || EqualFold wt "wasm") && decide (r.TriggerSubjects.length > 0)

/-- The loop over `request.TriggerSubjects` in `DeployWorkload` (machine_mgr.go:201-221): the
manager after the loop, and the value returned from inside it, if any. -/
def subscribeTriggers (m : MachineManager) (vmmID : String) (env : DeployEnv) :
    List String → MachineManager × Option Outcome
  | [] => (m, none)
  | tsub :: rest =>
    match env.subscribe tsub with
    | Except.error e =>
      match StopMachine m vmmID env.stop with
      | (m1, Outcome.panicked) => (m1, some Outcome.panicked)
      | (m1, _) => (m1, some (Outcome.err e))
    | Except.ok sub =>
      subscribeTriggers
        { m with vmsubz := mapSet m.vmsubz vmmID ((mapGet m.vmsubz vmmID).getD [] ++ [sub]) }
        vmmID env rest

/-- The tail of `DeployWorkload` (machine_mgr.go:224-233): the eight increments. -/
def deployTelemetry (m : MachineManager) (p : Nat) (request : agentapi.DeployRequest) :
    MachineManager × Outcome :=
  let vm := m.vmAt p
  match vm.deployRequest with
  | none => (m, Outcome.panicked)
  | some dr =>
    match dr.WorkloadType with
    | none => (m, Outcome.panicked)
    | some wt =>
      let m1 := m.add Counter.workloadCounter 1 (AttrSet.withWorkloadType wt)
      let m2 := m1.add Counter.workloadCounter 1
        ((AttrSet.withNamespace vm.namespace_).merge (AttrSet.withWorkloadType wt))
      let m3 := m2.add Counter.deployedByteCounter request.TotalBytes AttrSet.none
      let m4 := m3.add Counter.deployedByteCounter request.TotalBytes
        (AttrSet.withNamespace vm.namespace_)
      let m5 := m4.add Counter.allocatedVCPUCounter vm.VcpuCount AttrSet.none
      let m6 := m5.add Counter.allocatedVCPUCounter vm.VcpuCount
        (AttrSet.withNamespace vm.namespace_)
      let m7 := m6.add Counter.allocatedMemoryCounter vm.MemSizeMib AttrSet.none
      let m8 := m7.add Counter.allocatedMemoryCounter vm.MemSizeMib
        (AttrSet.withNamespace vm.namespace_)
      (m8, Outcome.nil)

/-- Lines 177 to 182 of `DeployWorkload`: the request, the namespace and the start time are
written to the VM record at `p`, and the deploy request is sent to its agent. -/
def bindDeployment (m : MachineManager) (p : Nat) (request : agentapi.DeployRequest)
    (ns : String) (now : Nat) : MachineManager :=
  let vm := m.vmAt p
  let vm1 : runningFirecracker :=
    { vm with deployRequest := some request, namespace_ := ns, workloadStarted := now }
  let m1 : MachineManager := m.setVM p vm1
  { m1 with agentRequests := m1.agentRequests ++ ["agentint." ++ vm1.vmmID ++ ".deploy"] }

/-- The method `DeployWorkload` (machine_mgr.go:166), on the VM record at `p`. -/
def DeployWorkload (m : MachineManager) (p : Nat) (request : agentapi.DeployRequest)
    (env : DeployEnv) : MachineManager × Outcome :=
  match env.marshalErr with
  | some e => (m, Outcome.err e)
  | none =>
    let vm := m.vmAt p
    match request.Namespace with
    | none => (m.setVM p { vm with deployRequest := some request }, Outcome.panicked)
    | some ns =>
      let m2 : MachineManager := bindDeployment m p request ns env.now
      match env.agent with
      | AgentReply.deadlineExceeded =>
        (m2, Outcome.err "timed out waiting for acknowledgement of workload deployment")
      | AgentReply.failed e =>
        (m2, Outcome.err ("failed to submit request for workload deployment: " ++ e))
      | AgentReply.malformed e => (m2, Outcome.err e)
      | AgentReply.reply deployResponse =>
        if !deployResponse.Accepted then
          match StopMachine m2 vm.vmmID env.stop with
          | (m3, Outcome.panicked) => (m3, Outcome.panicked)
          | (m3, _) =>
            match deployResponse.Message with
            | none => (m3, Outcome.panicked)
            | some msg => (m3, Outcome.err ("workload rejected by agent: " ++ msg))
        else if request.SupportsTriggerSubjects then
          match subscribeTriggers m2 vm.vmmID env request.TriggerSubjects with
          | (m3, some out) => (m3, out)
          | (m3, none) => deployTelemetry m3 p request
        else deployTelemetry m2 p request

/-- The loop `for vmID := range m.allVMs` of `Stop`, over the keys present when it starts. -/
def stopAll (m : MachineManager) (env : StopEnv) : List String → MachineManager × Outcome
  | [] => (m, Outcome.nil)
  | vmID :: rest =>
    match StopMachine m vmID env with
    | (m1, Outcome.panicked) => (m1, Outcome.panicked)
    | (m1, _) => stopAll m1 env rest

/-- The method `Stop` (machine_mgr.go:239). `cleanSockets` touches the file system only. -/
def Stop (m : MachineManager) (env : StopEnv) : MachineManager × Outcome :=
  let m1 : MachineManager := { m with closing := (m.closing + 1) % 2 ^ 32 }
  if m1.closing = 1 then
    if m1.warmClosed then (m1, Outcome.panicked)
    else
      let m2 : MachineManager := { m1 with warmClosed := true }
      stopAll m2 env (m2.allVMs.map Prod.fst)
  else (m1, Outcome.nil)

/-- The method `stopping` (machine_mgr.go:508). -/
def stopping (m : MachineManager) : Bool :=
  decide (m.closing > 0)

/-- One pass of the loop of `Start` (machine_mgr.go:139-162), `launch` being the answer of
`createAndStartVM`. -/
def warmStep (m : MachineManager) (launch : Except String Launched) : MachineManager :=
  if stopping m then m
  else if m.warmVMs.length = m.config.MachinePoolSize then m
  else
    match launch with
    | Except.error _ => m
    | Except.ok l =>
      let p := m.heap.length
      let m1 : MachineManager :=
        { m with heap := m.heap ++ [l.record], allVMs := mapSet m.allVMs l.vmmID p }
      let m2 := m1.add Counter.vmCounter 1 AttrSet.none
      { m2 with warmVMs := m2.warmVMs ++ [p] }

/-! ## `payload_cache.go` -/

/-- The method `CacheWorkload` (payload_cache.go:32). -/
def CacheWorkload (m : MachineManager) (request : controlapi.DeployRequest) (env : CacheEnv) :
    MachineManager × CacheResult :=
  let bucket := request.Location.Host
  let key := Trim request.Location.Path '/'
  match env.fetch request.JsDomain bucket key with
  | Except.error e => (m, CacheResult.err e)
  | Except.ok workload =>
    match env.jsInternalErr with
    | some _ => (m, CacheResult.panicked)
    | none =>
      match env.cacheErr with
      | some _ => (m, CacheResult.panicked)
      | none =>
        match env.putBytes request.DecodedClaims.Subject workload with
        | Except.error _ => (m, CacheResult.panicked)
        | Except.ok size =>
          let workloadHashString := env.sha256hex workload
          ({ m with internalCache := mapSet m.internalCache request.DecodedClaims.Subject workload },
           CacheResult.ok size workloadHashString)

/-! ## `controlapi.go`: the listener -/

/-- The constants `controlapi.StopResponseType`, `controlapi.RunResponseType`,
`controlapi.InfoResponseType` and `controlapi.PingResponseType`, kept symbolic. -/
inductive ResponseType where
  | StopResponseType
  | RunResponseType
  | InfoResponseType
  | PingResponseType
deriving DecidableEq, Repr, Inhabited

/-- The `data` of a reply envelope: the empty byte slice of a failure, or a response. -/
inductive EnvelopeData where
  | empty
  | stopResponse (Stopped : Bool) (Name Issuer MachineId : String)
  | runResponse (Started : Bool) (Name Issuer MachineId : String)
deriving DecidableEq, Repr, Inhabited

/-- The reply envelope built by `controlapi.NewEnvelope(type, data, error)`. -/
structure Envelope where
  type_ : ResponseType
  data : EnvelopeData
  error : Option String
deriving DecidableEq, Repr, Inhabited

/-- The function `respondFail` (controlapi.go:364): the envelope it sends. -/
def respondFail (responseType : ResponseType) (reason : String) : Envelope :=
  ⟨responseType, EnvelopeData.empty, some reason⟩

/-- The API listener: the manager and the node configuration. -/
structure ApiListener where
  mgr : MachineManager
  config : NodeConfiguration
deriving DecidableEq, Repr, Inhabited

/-- A bus message: its subject, and its data as `json.Unmarshal` decodes it. -/
structure Msg (α : Type) where
  Subject : String
  Data : Except String α

/-- How a handler ends: it returns, it panics, or it waits on the empty pool channel. -/
inductive HandlerStatus where
  | returned
  | panicked
  | blocked
deriving DecidableEq, Repr, Inhabited

/-- What a handler leaves behind: the manager, the replies sent in order, and how it ended. -/
structure Handled where
  mgr : MachineManager
  replies : List Envelope
  status : HandlerStatus
deriving DecidableEq, Repr, Inhabited

/-- The function `validateIssuer` (controlapi.go:333). -/
def validateIssuer (issuer : String) (validIssuers : List String) : Bool :=
  if validIssuers.length = 0 then true
  else validIssuers.contains issuer

/-- The conversion `int64(numBytes)` of a `uint64`. -/
def int64OfUint64 (n : Nat) : Int :=
  if n % 2 ^ 64 < 2 ^ 63 then ((n % 2 ^ 64 : Nat) : Int)
  else ((n % 2 ^ 64 : Nat) : Int) - 2 ^ 64

/-- What a receive from the pool channel gives: a VM, the zero value of a closed and empty
channel, or nothing yet. -/
inductive Received where
  | vm (p : Nat)
  | nilVM
  | blocks
deriving DecidableEq, Repr, Inhabited

/-- The receive `<-api.mgr.warmVMs` (controlapi.go:204). -/
def receiveWarm (m : MachineManager) : MachineManager × Received :=
  match m.warmVMs with
  | p :: rest => ({ m with warmVMs := rest }, Received.vm p)
  | [] => if m.warmClosed then (m, Received.nilVM) else (m, Received.blocks)

/-- The method `handleStop` (controlapi.go:94). `validate` is `request.Validate` against the
decoded claims of the deployment. -/
def handleStop (api : ApiListener)
    (validate : controlapi.StopRequest → GenericClaims → Option String) (env : StopEnv)
    (m : Msg controlapi.StopRequest) : Handled :=
  match extractNamespace m.Subject with
  | (_, some _) =>
    ⟨api.mgr, [respondFail ResponseType.StopResponseType "Invalid subject for workload stop"],
      HandlerStatus.returned⟩
  | (ns, none) =>
    match m.Data with
    | Except.error e =>
      ⟨api.mgr, [respondFail ResponseType.StopResponseType
        ("Unable to deserialize stop request: " ++ e)], HandlerStatus.returned⟩
    | Except.ok request =>
      match LookupMachine api.mgr request.WorkloadId with
      | none =>
        ⟨api.mgr, [respondFail ResponseType.StopResponseType "No such workload"],
          HandlerStatus.returned⟩
      | some p =>
        let vm := api.mgr.vmAt p
        if vm.namespace_ ≠ ns then
          ⟨api.mgr, [respondFail ResponseType.StopResponseType "No such workload"],
            HandlerStatus.returned⟩
        else
          match vm.deployRequest with
          | none => ⟨api.mgr, [], HandlerStatus.panicked⟩
          | some dr =>
            match validate request dr.DecodedClaims with
            | some e =>
              ⟨api.mgr, [respondFail ResponseType.StopResponseType
                ("Invalid stop request: " ++ e)], HandlerStatus.returned⟩
            | none =>
              match StopMachine api.mgr request.WorkloadId env with
              | (m1, Outcome.panicked) => ⟨m1, [], HandlerStatus.panicked⟩
              | (m1, Outcome.err e) =>
                ⟨m1, [respondFail ResponseType.StopResponseType
                    ("Failed to stop workload: " ++ e),
                  ⟨ResponseType.StopResponseType,
                    EnvelopeData.stopResponse true dr.DecodedClaims.Subject
                      dr.DecodedClaims.Issuer vm.vmmID, none⟩],
                  HandlerStatus.returned⟩
              | (m1, Outcome.nil) =>
                ⟨m1, [⟨ResponseType.StopResponseType,
                    EnvelopeData.stopResponse true dr.DecodedClaims.Subject
                      dr.DecodedClaims.Issuer vm.vmmID, none⟩],
                  HandlerStatus.returned⟩

/-- What `handleDeploy` is answered: `request.Validate(api.xk)`, the object stores, and the
answers to `DeployWorkload`. -/
structure DeployHandlerEnv where
  validate : controlapi.DeployRequest → Except String GenericClaims
  cache : CacheEnv
  deploy : DeployEnv

/-- The agent-facing request that `handleDeploy` builds (controlapi.go:217-228). -/
def agentRequest (request : controlapi.DeployRequest) (ns : String) (numBytes : Nat)
    (workloadHash : String) : agentapi.DeployRequest :=
  { Argv := request.Argv,
    DecodedClaims := request.DecodedClaims,
    Description := request.Description,
    Environment := request.WorkloadEnvironment,
    Hash := workloadHash,
    Namespace := some ns,
    TotalBytes := int64OfUint64 numBytes,
    TriggerSubjects := request.TriggerSubjects,
    WorkloadName := some request.DecodedClaims.Subject,
    WorkloadType := request.WorkloadType }

/-- The method `handleDeploy` (controlapi.go:154), from line 197 on: `CacheWorkload`, the
receive from the pool, `DeployWorkload` and the reply. `sent` holds the replies already
sent. -/
def handleDeployFrom197 (api : ApiListener) (env : DeployHandlerEnv) (ns : String)
    (request : controlapi.DeployRequest) (sent : List Envelope) : Handled :=
  match CacheWorkload api.mgr request env.cache with
  | (m1, CacheResult.panicked) => ⟨m1, sent, HandlerStatus.panicked⟩
  | (m1, CacheResult.err e) =>
    ⟨m1, sent ++ [respondFail ResponseType.RunResponseType
      ("Failed to cache workload bytes: " ++ e)], HandlerStatus.returned⟩
  | (m1, CacheResult.ok numBytes workloadHash) =>
    match receiveWarm m1 with
    | (m2, Received.blocks) => ⟨m2, sent, HandlerStatus.blocked⟩
    | (m2, Received.nilVM) => ⟨m2, sent, HandlerStatus.panicked⟩
    | (m2, Received.vm p) =>
      let workloadName := request.DecodedClaims.Subject
      match DeployWorkload m2 p (agentRequest request ns numBytes workloadHash) env.deploy with
      | (m3, Outcome.panicked) => ⟨m3, sent, HandlerStatus.panicked⟩
      | (m3, Outcome.err e) =>
        ⟨m3, sent ++ [respondFail ResponseType.RunResponseType
          ("Unable to deploy workload: " ++ e)], HandlerStatus.returned⟩
      | (m3, Outcome.nil) =>
        match (m3.vmAt p).deployRequest with
        | none => ⟨m3, sent, HandlerStatus.panicked⟩
        | some dr =>
          ⟨m3, sent ++ [⟨ResponseType.RunResponseType,
            EnvelopeData.runResponse true workloadName dr.DecodedClaims.Issuer
              (m3.vmAt p).vmmID, none⟩], HandlerStatus.returned⟩

/-- The method `handleDeploy` (controlapi.go:154). -/
def handleDeploy (api : ApiListener) (env : DeployHandlerEnv)
    (m : Msg controlapi.DeployRequest) : Handled :=
  match extractNamespace m.Subject with
  | (_, some _) =>
    ⟨api.mgr, [respondFail ResponseType.RunResponseType
      "Invalid subject for workload deployment"], HandlerStatus.returned⟩
  | (ns, none) =>
    match m.Data with
    | Except.error e =>
      ⟨api.mgr, [respondFail ResponseType.RunResponseType
        ("Unable to deserialize deploy request: " ++ e)], HandlerStatus.returned⟩
    | Except.ok request =>
      match request.WorkloadType with
      | none => ⟨api.mgr, [], HandlerStatus.panicked⟩
      | some wt =>
        if !api.config.WorkloadTypes.contains wt then
          ⟨api.mgr, [respondFail ResponseType.RunResponseType
            ("Unsupported workload type on this node: " ++ wt)], HandlerStatus.returned⟩
        else if decide (request.TriggerSubjects.length > 0) &&
            (!EqualFold wt "v8" && !EqualFold wt "wasm") then
          ⟨api.mgr, [respondFail ResponseType.RunResponseType
            ("Unsupported workload type for trigger subject registration: " ++ wt)],
            HandlerStatus.returned⟩
        else
          match env.validate request with
          | Except.error e =>
            ⟨api.mgr, [respondFail ResponseType.RunResponseType
              ("Invalid deploy request: " ++ e)], HandlerStatus.returned⟩
          | Except.ok decodedClaims =>
            let request1 : controlapi.DeployRequest :=
              { request with DecodedClaims := decodedClaims }
            if !validateIssuer request1.DecodedClaims.Issuer api.mgr.config.ValidIssuers then
              -- the reply is sent and control goes on to line 197
              handleDeployFrom197 api env ns request1
                [respondFail ResponseType.RunResponseType
                  ("invalid workload issuer: " ++ request1.DecodedClaims.Issuer)]
            else handleDeployFrom197 api env ns request1 []

/-! ## `controlapi.go`: uptime and machine summaries -/

/-- The constant `time.Second`, a `time.Duration` in nanoseconds. -/
def Second : Int := 1000000000

/-- The verb `%d` of `fmt.Sprintf` on an integer. -/
def fmtInt (n : Int) : String := toString n

/-- The function `myUptime` (controlapi.go:341). The divisions and remainders of Go round
towards zero. -/
def myUptime (d : Int) : String :=
  let tsecs := Int.tdiv d Second
  let tmins := Int.tdiv tsecs 60
  let thrs := Int.tdiv tmins 60
  let tdays := Int.tdiv thrs 24
  let tyrs := Int.tdiv tdays 365
  if tyrs > 0 then
    fmtInt tyrs ++ "y" ++ fmtInt (Int.tmod tdays 365) ++ "d" ++ fmtInt (Int.tmod thrs 24) ++ "h" ++
      fmtInt (Int.tmod tmins 60) ++ "m" ++ fmtInt (Int.tmod tsecs 60) ++ "s"
  else if tdays > 0 then
    fmtInt tdays ++ "d" ++ fmtInt (Int.tmod thrs 24) ++ "h" ++
      fmtInt (Int.tmod tmins 60) ++ "m" ++ fmtInt (Int.tmod tsecs 60) ++ "s"
  else if thrs > 0 then
    fmtInt thrs ++ "h" ++ fmtInt (Int.tmod tmins 60) ++ "m" ++ fmtInt (Int.tmod tsecs 60) ++ "s"
  else if tmins > 0 then
    fmtInt tmins ++ "m" ++ fmtInt (Int.tmod tsecs 60) ++ "s"
  else
    fmtInt tsecs ++ "s"

/-- The method `Time.Sub` on instants counted in nanoseconds: the difference, held within the
range of a `time.Duration`. -/
def timeSub (t u : Nat) : Int :=
  if (t : Int) - (u : Int) > 2 ^ 63 - 1 then 2 ^ 63 - 1
  else if (t : Int) - (u : Int) < -(2 ^ 63) then -(2 ^ 63)
  else (t : Int) - (u : Int)

/-- The workload part of a machine summary, `controlapi.WorkloadSummary`. -/
structure controlapi.WorkloadSummary where
  Name : String
  Description : String
  Runtime : String
  WorkloadType : String
deriving DecidableEq, Repr, Inhabited

/-- The summary of one machine in an info reply, `controlapi.MachineSummary`. -/
structure controlapi.MachineSummary where
  Id : String
  Healthy : Bool
  Uptime : String
  Workload : controlapi.WorkloadSummary
deriving DecidableEq, Repr, Inhabited

/-- The function `summarizeMachines` (controlapi.go:299), on the VM map with its pointers
followed and in the order the loop visits it; `now` is the clock. The result is `none` when
the loop panics: it reads `v.deployRequest.Description` of a VM without a deploy request. -/
def summarizeMachines (vms : List (String × runningFirecracker)) (ns : String) (now : Nat) :
    Option (List controlapi.MachineSummary) :=
  match vms with
  | [] => some []
  | (_, v) :: rest =>
    if v.namespace_ = ns then
      match v.deployRequest with
      | none => none
      | some dr =>
        let desc : String :=
          match dr.Description with
          | some d => d
          | none => ""
        let workloadType : String :=
          match dr.WorkloadType with
          | some w => w
          | none => ""
        let machine : controlapi.MachineSummary :=
          { Id := v.vmmID,
            Healthy := true,
            Uptime := myUptime (timeSub now v.machineStarted),
            Workload :=
              { Name := dr.DecodedClaims.Subject,
                Description := desc,
                Runtime := myUptime (timeSub now v.workloadStarted),
                WorkloadType := workloadType } }
        match summarizeMachines rest ns now with
        | none => none
        | some machines => some (machine :: machines)
    else summarizeMachines rest ns now

/-- The VM map with its pointers followed, as `handleInfo` hands it to `summarizeMachines`. -/
def MachineManager.vms (m : MachineManager) : List (String × runningFirecracker) :=
  m.allVMs.map (fun kp => (kp.1, m.vmAt kp.2))

/-! ## The manager as a state machine -/

/-- The operations of the manager: one pass of the warming loop, an allocation from the pool
followed by `DeployWorkload` on the VM received (controlapi.go:204-228), `StopMachine`, and
`Stop`. -/
inductive Op where
  | warm (launch : Except String Launched)
  | deploy (request : agentapi.DeployRequest) (env : DeployEnv)
  | stopMachine (vmID : String) (env : StopEnv)
  | stop (env : StopEnv)

/-- The manager after one operation. -/
def step (m : MachineManager) : Op → MachineManager
  | Op.warm launch => warmStep m launch
  | Op.deploy request env =>
    match receiveWarm m with
    | (m1, Received.vm p) => (DeployWorkload m1 p request env).1
    | (m1, _) => m1
  | Op.stopMachine vmID env => (StopMachine m vmID env).1
  | Op.stop env => (Stop m env).1

/-- The manager after a sequence of operations. -/
def run (m : MachineManager) : List Op → MachineManager
  | [] => m
  | op :: ops => run (step m op) ops

/-- The launcher synthesises a VM id that no VM of `allVMs` carries. -/
def FreshLaunch (m : MachineManager) : Op → Prop
  | Op.warm (Except.ok l) => mapGet m.allVMs l.vmmID = none
  | _ => True

/-- A deploy runs on a VM whose id is still a key of `allVMs`: the VM it receives from the
pool has not been stopped while it was queued. -/
def LiveDeploy (m : MachineManager) : Op → Prop
  | Op.deploy _ _ =>
    match m.warmVMs with
    | p :: _ => mapGet m.allVMs (m.vmAt p).vmmID ≠ none
    | [] => True
  | _ => True

/-- The states the manager reaches from `m0` by operations that satisfy `adm`. -/
inductive ReachableBy (adm : MachineManager → Op → Prop) (m0 : MachineManager) :
    MachineManager → Prop where
  | init : ReachableBy adm m0 m0
  | next {m : MachineManager} (op : Op) :
      ReachableBy adm m0 m → adm m op → ReachableBy adm m0 (step m op)

/-- The states reachable from a new manager by the warming loop, allocation and
`DeployWorkload`, `StopMachine` and `Stop`. -/
def Reachable (m : MachineManager) : Prop :=
  ∃ config publicKey, ReachableBy FreshLaunch (NewMachineManager config publicKey) m

/-- The reachable states in which, moreover, every deploy ran on a VM still in `allVMs`. -/
def ReachableLive (m : MachineManager) : Prop :=
  ∃ config publicKey,
    ReachableBy (fun s op => FreshLaunch s op ∧ LiveDeploy s op)
      (NewMachineManager config publicKey) m

/-! ## Auxiliary definitions and example inputs -/

/-- The tokens of a list of characters joined by `sep`; the inverse of `splitOnChar`. -/
def joinWith (sep : Char) : List (List Char) → List Char
  | [] => []
  | [t] => t
  | t :: u :: ts => t ++ sep :: joinWith sep (u :: ts)

/-- The state used in the examples of the stop flow: one VM "vm1", bound to a deployment in
namespace "ns1". -/
def boundExample : MachineManager :=
  { closing := 0, config := ⟨1, ["native"], []⟩, publicKey := "NODE",
    heap := [{ vmmID := "vm1", VcpuCount := 1, MemSizeMib := 256,
               deployRequest := some
                 { Argv := [], DecodedClaims := ⟨"echo", "ISSUER", "abc"⟩, Description := none,
                   Environment := [], Hash := "abc", Namespace := some "ns1", TotalBytes := 3,
                   TriggerSubjects := [], WorkloadName := some "echo",
                   WorkloadType := some "native" },
               namespace_ := "ns1", machineStarted := 0, workloadStarted := 1,
               shutdownCalled := false }],
    allVMs := [("vm1", 0)], warmVMs := [], warmClosed := false, vmsubz := [], t := [],
    agentRequests := [], drained := [], published := [], internalCache := [] }

/-- An environment of `StopMachine` in which the bus reports no error. -/
def quietStop : StopEnv := ⟨fun _ => none, fun _ => none⟩

/-- A node that accepts the workload type "native" and the issuer "X" only, with a pool of
one VM, after one pass of the warming loop has put the VM "vm1" into the pool. -/
def warmExample : MachineManager :=
  warmStep (NewMachineManager ⟨1, ["native", "v8"], ["X"]⟩ "NODE")
    (Except.ok ⟨"vm1", 1, 256, 0⟩)

/-- A deploy request for the workload "echo" of type "native", stored at nats://BUCKET/echo,
whose claims carry the hash "00". -/
def exampleRequest : controlapi.DeployRequest :=
  { Argv := [], Description := none, WorkloadType := some "native",
    Location := ⟨"BUCKET", "/echo"⟩, JsDomain := none, TriggerSubjects := [],
    WorkloadEnvironment := [], DecodedClaims := ⟨"echo", "Y", "00"⟩ }

/-- Object stores that hold the three bytes 1, 2, 3 under every key and report a size of 3,
with the digest of those bytes. -/
def exampleCache : CacheEnv :=
  { fetch := fun _ _ _ => Except.ok [1, 2, 3],
    jsInternalErr := none, cacheErr := none,
    putBytes := fun _ workload => Except.ok workload.length,
    sha256hex := fun _ => "039058c6f2c0cb492c533b0a4d14ef77cc0f78abccced5287d84a1a2011cfb81" }

/-- An agent that answers the deploy request as given, on a bus without errors. -/
def exampleDeploy (agent : AgentReply) : DeployEnv :=
  { marshalErr := none, now := 5, agent := agent,
    subscribe := fun tsub => Except.ok ⟨tsub⟩, stop := quietStop }

/-- The agent-facing request for "echo" in namespace "ns1". -/
def exampleAgentRequest : agentapi.DeployRequest :=
  agentRequest exampleRequest "ns1" 3
    "039058c6f2c0cb492c533b0a4d14ef77cc0f78abccced5287d84a1a2011cfb81"

/-- The map `allVMs` is well formed: no id and no VM record appears twice, every record is
allocated, and `shutdown` has been called on none. -/
def InvMap (m : MachineManager) : Prop :=
  (m.allVMs.map Prod.fst).Nodup ∧ (m.allVMs.map Prod.snd).Nodup ∧
    ∀ kp ∈ m.allVMs, kp.2 < m.heap.length ∧ (m.vmAt kp.2).shutdownCalled = false

/-- Every VM record queued in the channel `warmVMs` is allocated, and it is a value of
`allVMs` or `shutdown` has been called on it. -/
def InvChan (m : MachineManager) : Prop :=
  ∀ p ∈ m.warmVMs, p < m.heap.length ∧
    ((∃ k, (k, p) ∈ m.allVMs) ∨ (m.vmAt p).shutdownCalled = true)

/-- The invariant of the pool: `InvMap` and `InvChan`. -/
def PoolInv (m : MachineManager) : Prop := InvMap m ∧ InvChan m

/-- Every id with an entry in `vmsubz` is a key of `allVMs`. -/
def SubzInv (m : MachineManager) : Prop :=
  ∀ k, mapGet m.vmsubz k ≠ none → mapGet m.allVMs k ≠ none

/-- The node of `warmExample` after `Stop`: the channel is closed, the VM "vm1" has been
stopped and removed from `allVMs`, and its record is still queued in the channel. -/
def stoppedExample : MachineManager :=
  step (step (NewMachineManager ⟨1, ["native", "v8"], ["X"]⟩ "NODE")
    (Op.warm (Except.ok ⟨"vm1", 1, 256, 0⟩))) (Op.stop quietStop)

/-- The agent-facing request for a workload of type "v8" with the trigger subject "a.b". -/
def triggerRequest : agentapi.DeployRequest :=
  agentRequest { exampleRequest with WorkloadType := some "v8", TriggerSubjects := ["a.b"] }
    "ns1" 3 "039058c6f2c0cb492c533b0a4d14ef77cc0f78abccced5287d84a1a2011cfb81"

/-- The node of `stoppedExample` after a deploy that receives the queued record of "vm1" and
is answered with an acceptance. -/
def staleDeployExample : MachineManager :=
  step stoppedExample (Op.deploy triggerRequest (exampleDeploy (AgentReply.reply ⟨true, none⟩)))

/-- The node of `warmExample` after a deploy of the workload with the trigger subject "a.b"
on the VM "vm1", accepted by the agent. -/
def liveDeployExample : MachineManager :=
  step (step (NewMachineManager ⟨1, ["native", "v8"], ["X"]⟩ "NODE")
    (Op.warm (Except.ok ⟨"vm1", 1, 256, 0⟩)))
    (Op.deploy triggerRequest (exampleDeploy (AgentReply.reply ⟨true, none⟩)))

/-- Every deployment recorded on a VM carries a workload type. -/
def TypedInv (m : MachineManager) : Prop :=
  ∀ vm ∈ m.heap, ∀ dr, vm.deployRequest = some dr → dr.WorkloadType ≠ none

/-- The request of a deploy carries a workload type, as every request built by `handleDeploy`
does: the handler dereferences `request.WorkloadType` at controlapi.go:170 first. -/
def TypedDeploy (_m : MachineManager) : Op → Prop
  | Op.deploy request _ => request.WorkloadType ≠ none
  | _ => True

/-- A source object store that finds nothing and names the bucket and the key it was asked
for in its error. -/
def echoStore : CacheEnv :=
  { exampleCache with fetch := fun _ bucket key => Except.error (bucket ++ ":" ++ key) }

/-- A VM record with a namespace carries a deploy request. -/
def NamespaceInv (m : MachineManager) : Prop :=
  ∀ vm ∈ m.heap, vm.namespace_ ≠ "" → vm.deployRequest ≠ none

/-- The text of a list of printed fields: each value in decimal, followed by its unit. -/
def renderFields : List (Int × Char) → String
  | [] => ""
  | (v, u) :: rest => fmtInt v ++ String.singleton u ++ renderFields rest

/-- The fields of an uptime as the text shows them: years, days, hours and minutes with the
leading fields of value zero left out, then the seconds. -/
def printedFields (y dd h m sec : Int) : List (Int × Char) :=
  ([(y, 'y'), (dd, 'd'), (h, 'h'), (m, 'm')].dropWhile (fun f => f.1 == 0)) ++ [(sec, 's')]

/-- A summary describes a VM: it carries the id of the VM and the name, description and type
of its deploy request, the empty string standing for an absent description or type. -/
def Summarizes (s : controlapi.MachineSummary) (v : runningFirecracker) : Prop :=
  s.Id = v.vmmID ∧
    ∃ dr, v.deployRequest = some dr ∧ s.Workload.Name = dr.DecodedClaims.Subject ∧
      s.Workload.Description = dr.Description.getD "" ∧
      s.Workload.WorkloadType = dr.WorkloadType.getD ""

/-- The manager after `n` calls of `Stop` in a row. -/
def stopTimes (m : MachineManager) (env : StopEnv) : Nat → MachineManager
  | 0 => m
  | n + 1 => (Stop (stopTimes m env n) env).1

/-- The counter `vmCounter` stands at the number of entries of `allVMs`, no id appears twice
in `allVMs`, and every recorded deployment carries a workload type. -/
def VmCountInv (m : MachineManager) : Prop :=
  (m.allVMs.map Prod.fst).Nodup ∧ TypedInv m ∧
    counterValue m.t Counter.vmCounter AttrSet.none = (m.allVMs.length : Int)

/-- The states reachable from a new manager by operations in which the launcher gives fresh
ids and the deploy requests carry a workload type. -/
def ReachableTyped (m : MachineManager) : Prop :=
  ∃ config publicKey,
    ReachableBy (fun s op => FreshLaunch s op ∧ TypedDeploy s op)
      (NewMachineManager config publicKey) m

/-- A node with a pool of two after the VMs "vm1" and "vm2" have been registered and "vm1" has
been stopped. -/
def countExample : MachineManager :=
  step (step (step (NewMachineManager ⟨2, ["native", "v8"], ["X"]⟩ "NODE")
    (Op.warm (Except.ok ⟨"vm1", 1, 256, 0⟩))) (Op.warm (Except.ok ⟨"vm2", 1, 256, 7⟩)))
    (Op.stopMachine "vm1" quietStop)

/-- The cache environment of `exampleCache` whose `PutBytes` fails. -/
def failingPutCache : CacheEnv :=
  { exampleCache with putBytes := fun _ _ => Except.error "put failed" }

/-- No key of `allVMs` appears between `m` and `m1`. -/
def KeysShrink (m m1 : MachineManager) : Prop :=
  ∀ k, mapGet m.allVMs k = none → mapGet m1.allVMs k = none

/-- The operation registers a VM under the id `vmID`: it is a pass of the warming loop whose
launch gives a VM of that id. -/
def Registers (op : Op) (vmID : String) : Prop :=
  match op with
  | Op.warm (Except.ok l) => l.vmmID = vmID
  | _ => False

/-! ## Subject parsing: `extractNamespace` -/

theorem splitOnChar_ne_nil (sep : Char) (cs : List Char) : splitOnChar sep cs ≠ [] := by
  induction cs with
  | nil => simp [splitOnChar]
  | cons c cs ih =>
    unfold splitOnChar
    split
    · simp
    · split <;> simp

theorem splitOnChar_no_sep (sep : Char) (cs : List Char) :
    ∀ t ∈ splitOnChar sep cs, sep ∉ t := by
  induction cs with
  | nil => simp [splitOnChar]
  | cons c cs ih =>
    unfold splitOnChar
    split
    · intro t ht
      rcases List.mem_cons.1 ht with h | h
      · simp [h]
      · exact ih t h
    · rename_i hc
      split
      · intro t ht
        simp only [List.mem_singleton] at ht
        subst ht
        simpa using fun h => hc h.symm
      · rename_i t0 ts heq
        intro t ht
        have ih0 : sep ∉ t0 := ih t0 (by rw [heq]; simp)
        rcases List.mem_cons.1 ht with h | h
        · subst h
          simp only [List.mem_cons, not_or]
          exact ⟨fun h => hc h.symm, ih0⟩
        · exact ih t (by rw [heq]; exact List.mem_cons_of_mem _ h)

theorem joinWith_splitOnChar (sep : Char) (cs : List Char) :
    joinWith sep (splitOnChar sep cs) = cs := by
  induction cs with
  | nil => simp [splitOnChar, joinWith]
  | cons c cs ih =>
    unfold splitOnChar
    split
    · rename_i hc
      cases hs : splitOnChar sep cs with
      | nil => exact absurd hs (splitOnChar_ne_nil sep cs)
      | cons t ts =>
        rw [hs] at ih
        simp [joinWith, ih, hc]
    · split
      · rename_i heq
        exact absurd heq (splitOnChar_ne_nil sep cs)
      · rename_i t0 ts heq
        rw [heq] at ih
        cases ts with
        | nil => simpa [joinWith] using ih
        | cons u us =>
          simp only [joinWith, List.cons_append, List.cons.injEq, true_and]
          simpa [joinWith] using ih

theorem splitOnChar_of_no_sep (sep : Char) (t : List Char) (h : sep ∉ t) :
    splitOnChar sep t = [t] := by
  induction t with
  | nil => simp [splitOnChar]
  | cons c cs ih =>
    simp only [List.mem_cons, not_or] at h
    unfold splitOnChar
    rw [if_neg (fun hc => h.1 hc.symm), ih h.2]

theorem splitOnChar_append_sep (sep : Char) (t rest : List Char) (h : sep ∉ t) :
    splitOnChar sep (t ++ sep :: rest) = t :: splitOnChar sep rest := by
  induction t with
  | nil => simp [splitOnChar]
  | cons c cs ih =>
    simp only [List.mem_cons, not_or] at h
    simp only [List.cons_append]
    rw [splitOnChar, if_neg (fun hc => h.1 hc.symm), ih h.2]

theorem splitOnChar_joinWith (sep : Char) (ts : List (List Char)) (hne : ts ≠ [])
    (h : ∀ t ∈ ts, sep ∉ t) : splitOnChar sep (joinWith sep ts) = ts := by
  induction ts with
  | nil => exact absurd rfl hne
  | cons t ts ih =>
    cases ts with
    | nil => simpa [joinWith] using splitOnChar_of_no_sep sep t (h t (by simp))
    | cons u us =>
      simp only [joinWith]
      rw [splitOnChar_append_sep sep t _ (h t (by simp))]
      rw [ih (by simp) (fun x hx => h x (List.mem_cons_of_mem _ hx))]

theorem intercalate_go_data (sep : String) (ts : List String) (acc : String) :
    (String.intercalate.go acc sep ts).data =
      acc.data ++ (ts.map (fun t => sep.data ++ t.data)).flatten := by
  induction ts generalizing acc with
  | nil => simp [String.intercalate.go]
  | cons t ts ih =>
    simp [String.intercalate.go, ih, String.data_append, List.append_assoc]

theorem intercalate_dot_data (ts : List String) :
    (String.intercalate "." ts).data = joinWith '.' (ts.map String.data) := by
  cases ts with
  | nil => simp [String.intercalate, joinWith]
  | cons t ts =>
    simp only [String.intercalate, intercalate_go_data, List.map_cons]
    induction ts generalizing t with
    | nil => simp [joinWith]
    | cons u us ih =>
      simp only [List.map_cons, List.flatten_cons, joinWith]
      rw [← ih u]
      rfl

/-- The tokens of a subject, joined by dots, give the subject back, and none holds a dot. -/
theorem Split_decomposes (subject : String) :
    Split subject '.' ≠ [] ∧
      (∀ t ∈ Split subject '.', '.' ∉ t.data) ∧
      subject = String.intercalate "." (Split subject '.') := by
  refine ⟨?_, ?_, ?_⟩
  · simp [Split, splitOnChar_ne_nil]
  · intro t ht
    simp only [Split, List.mem_map] at ht
    obtain ⟨cs, hcs, rfl⟩ := ht
    exact splitOnChar_no_sep _ _ cs hcs
  · apply String.ext
    rw [intercalate_dot_data]
    simp only [Split, List.map_map]
    have : (String.data ∘ String.mk) = id := by funext x; rfl
    rw [this, List.map_id, joinWith_splitOnChar]

/-- Splitting a dot-joined list of dot-free tokens gives the tokens back. -/
theorem Split_intercalate (tokens : List String) (hne : tokens ≠ [])
    (hdot : ∀ t ∈ tokens, '.' ∉ t.data) :
    Split (String.intercalate "." tokens) '.' = tokens := by
  unfold Split
  rw [intercalate_dot_data, splitOnChar_joinWith]
  · simp only [List.map_map]
    have : (String.mk ∘ String.data) = id := by funext x; rfl
    rw [this, List.map_id]
  · simpa using hne
  · intro t ht
    simp only [List.mem_map] at ht
    obtain ⟨s, hs, rfl⟩ := ht
    exact hdot s hs

theorem extractNamespace_eq (subject : String) :
    extractNamespace subject =
      if (Split subject '.').length < 3 then
        ("", some "Invalid subject - could not detect a namespace")
      else ((Split subject '.')[2]?.getD "", none) := by
  unfold extractNamespace
  by_cases h : (Split subject '.').length < 3
  · simp [h]
  · have h2 : 2 < (Split subject '.').length := by omega
    simp [h, List.getElem?_eq_getElem h2]

/-- C10. For every subject, written as its dot-free tokens joined by ".": with fewer than
three tokens `extractNamespace` returns the empty string and an error, and otherwise it
returns the token at index 2 and no error, however many tokens follow. -/
theorem extractNamespace_third_token (subject : String) (tokens : List String)
    (hne : tokens ≠ []) (hdot : ∀ t ∈ tokens, '.' ∉ t.data)
    (hsub : subject = String.intercalate "." tokens) :
    (tokens.length < 3 →
      extractNamespace subject =
        ("", some "Invalid subject - could not detect a namespace")) ∧
    (∀ t, tokens[2]? = some t → extractNamespace subject = (t, none)) := by
  subst hsub
  rw [extractNamespace_eq, Split_intercalate tokens hne hdot]
  constructor
  · intro h
    simp [h]
  · intro t ht
    have h2 : 2 < tokens.length := by
      by_contra hlt
      rw [List.getElem?_eq_none (by omega)] at ht
      cases ht
    have h3 : ¬ tokens.length < 3 := by omega
    simp [h3, ht]

/-- C10, at the subject "$NEX.STOP.default.NODE.extra" of five tokens: the result is the
third token. -/
theorem extractNamespace_third_token_witness :
    extractNamespace "$NEX.STOP.default.NODE.extra" = ("default", none) :=
  (extractNamespace_third_token "$NEX.STOP.default.NODE.extra"
    ["$NEX", "STOP", "default", "NODE", "extra"] (by decide) (by decide) (by decide)).2
    "default" (by decide)

/-! ## The control listener: stop -/

/-- C1. A stop request whose subject names a namespace other than that of the target VM is
answered by the single failure envelope (stop response type, empty data, error "No such
workload") that a request for an id absent from `allVMs` gets, and the manager is left as
it was: the VM is still in `allVMs`, `StopMachine` has not run. -/
theorem handleStop_namespace_isolation (api api0 : ApiListener)
    (validate : controlapi.StopRequest → GenericClaims → Option String) (env : StopEnv)
    (m : Msg controlapi.StopRequest) (request : controlapi.StopRequest) (ns2 : String)
    (p : Nat)
    (hsubject : extractNamespace m.Subject = (ns2, none))
    (hdata : m.Data = Except.ok request)
    (hvm : LookupMachine api.mgr request.WorkloadId = some p)
    (hns : (api.mgr.vmAt p).namespace_ ≠ ns2)
    (habsent : LookupMachine api0.mgr request.WorkloadId = none) :
    (handleStop api validate env m).replies = (handleStop api0 validate env m).replies ∧
    (handleStop api validate env m).replies =
      [⟨ResponseType.StopResponseType, EnvelopeData.empty, some "No such workload"⟩] ∧
    (handleStop api validate env m).status = (handleStop api0 validate env m).status ∧
    (handleStop api validate env m).mgr = api.mgr ∧
    LookupMachine (handleStop api validate env m).mgr request.WorkloadId = some p := by
  have h1 : handleStop api validate env m =
      ⟨api.mgr, [respondFail ResponseType.StopResponseType "No such workload"],
        HandlerStatus.returned⟩ := by
    simp only [handleStop, hsubject, hdata, hvm]
    rw [if_pos hns]
  have h0 : handleStop api0 validate env m =
      ⟨api0.mgr, [respondFail ResponseType.StopResponseType "No such workload"],
        HandlerStatus.returned⟩ := by
    simp only [handleStop, hsubject, hdata, habsent]
  rw [h1, h0]
  exact ⟨rfl, rfl, rfl, rfl, hvm⟩

/-- C1, at a stop sent on "$NEX.STOP.ns2.NODE" for the VM "vm1" of namespace "ns1", against
the same request on a node without VMs. -/
theorem handleStop_namespace_isolation_witness :
    (handleStop ⟨boundExample, boundExample.config⟩ (fun _ _ => none)
        ⟨fun _ => none, fun _ => none⟩ ⟨"$NEX.STOP.ns2.NODE", Except.ok ⟨"vm1", "jwt"⟩⟩).replies =
      [⟨ResponseType.StopResponseType, EnvelopeData.empty, some "No such workload"⟩] ∧
    LookupMachine
      (handleStop ⟨boundExample, boundExample.config⟩ (fun _ _ => none)
        ⟨fun _ => none, fun _ => none⟩ ⟨"$NEX.STOP.ns2.NODE", Except.ok ⟨"vm1", "jwt"⟩⟩).mgr
      "vm1" = some 0 :=
  have h := handleStop_namespace_isolation ⟨boundExample, boundExample.config⟩
    ⟨NewMachineManager boundExample.config "NODE", boundExample.config⟩ (fun _ _ => none)
    ⟨fun _ => none, fun _ => none⟩ ⟨"$NEX.STOP.ns2.NODE", Except.ok ⟨"vm1", "jwt"⟩⟩
    ⟨"vm1", "jwt"⟩ "ns2" 0 (by decide) rfl (by decide) (by decide) (by decide)
  ⟨h.2.1, h.2.2.2.2⟩

/-! ## `StopMachine` -/

theorem publishMachineStopped_fields (m : MachineManager) (vm : runningFirecracker)
    (env : StopEnv) :
    (publishMachineStopped m vm env).1.allVMs = m.allVMs ∧
    (publishMachineStopped m vm env).1.vmsubz = m.vmsubz ∧
    (publishMachineStopped m vm env).1.heap = m.heap ∧
    (publishMachineStopped m vm env).1.warmVMs = m.warmVMs ∧
    (publishMachineStopped m vm env).1.warmClosed = m.warmClosed ∧
    (publishMachineStopped m vm env).1.closing = m.closing ∧
    (publishMachineStopped m vm env).1.config = m.config ∧
    (publishMachineStopped m vm env).1.t = m.t := by
  unfold publishMachineStopped
  cases vm.deployRequest with
  | none => simp
  | some dr =>
    by_cases hl : (TrimSpace dr.DecodedClaims.Subject).length > 0
    · cases hc : env.cloudEventErr vm.vmmID <;> simp [hl, hc]
    · simp [hl]

theorem StopMachine_absent (m : MachineManager) (vmID : String) (env : StopEnv)
    (h : mapGet m.allVMs vmID = none) :
    StopMachine m vmID env = (m, Outcome.err ("failed to stop machine " ++ vmID)) := by
  simp [StopMachine, h]

theorem StopMachine_present (m : MachineManager) (vmID : String) (env : StopEnv) (p : Nat)
    (h : mapGet m.allVMs vmID = some p) :
    (StopMachine m vmID env).1.allVMs = mapDelete m.allVMs vmID ∧
    (StopMachine m vmID env).1.vmsubz = mapDelete m.vmsubz vmID ∧
    (StopMachine m vmID env).1.heap =
      m.heap.set p { m.vmAt p with shutdownCalled := true } ∧
    (StopMachine m vmID env).1.warmVMs = m.warmVMs ∧
    (StopMachine m vmID env).1.warmClosed = m.warmClosed ∧
    (StopMachine m vmID env).1.closing = m.closing ∧
    (StopMachine m vmID env).1.config = m.config ∧
    (∀ e, (StopMachine m vmID env).2 ≠ Outcome.err e) := by
  simp only [StopMachine, h]
  have hp := fun m0 vm0 => publishMachineStopped_fields m0 vm0 env
  repeat' split
  all_goals simp [MachineManager.add, MachineManager.setVM, MachineManager.vmAt, hp]

theorem StopMachine_nil (m : MachineManager) (vmID : String) (env : StopEnv) (p : Nat)
    (h : mapGet m.allVMs vmID = some p)
    (hwt : ∀ dr, (m.vmAt p).deployRequest = some dr → dr.WorkloadType ≠ none) :
    (StopMachine m vmID env).2 = Outcome.nil := by
  simp only [StopMachine, h]
  cases hd : (m.vmAt p).deployRequest with
  | none => simp
  | some dr =>
    cases hw : dr.WorkloadType with
    | none => exact absurd hw (hwt dr hd)
    | some wt => simp [hw]

/-! ## Go maps -/

theorem mapDelete_cons {α : Type} (k1 : String) (v : α) (rest : List (String × α))
    (k : String) :
    mapDelete ((k1, v) :: rest) k =
      if k1 = k then mapDelete rest k else (k1, v) :: mapDelete rest k := by
  unfold mapDelete
  by_cases hk : k1 = k <;> simp [List.filter_cons, hk]

theorem mapGet_mapDelete_self {α : Type} (m : List (String × α)) (k : String) :
    mapGet (mapDelete m k) k = none := by
  induction m with
  | nil => rfl
  | cons kv rest ih =>
    obtain ⟨k1, v⟩ := kv
    rw [mapDelete_cons]
    by_cases hk : k1 = k
    · simp [hk, ih]
    · simp [hk, mapGet, ih]

theorem mapGet_mapDelete_ne {α : Type} (m : List (String × α)) (k k1 : String)
    (h : k1 ≠ k) : mapGet (mapDelete m k) k1 = mapGet m k1 := by
  induction m with
  | nil => rfl
  | cons kv rest ih =>
    obtain ⟨k2, v⟩ := kv
    rw [mapDelete_cons]
    by_cases hk : k2 = k
    · have hk1 : ¬ k2 = k1 := fun e => h (e ▸ hk)
      rw [if_pos hk, ih]
      simp [mapGet, hk1]
    · simp [hk, mapGet, ih]

theorem mapGet_mapDelete_of_none {α : Type} (m : List (String × α)) (k k1 : String)
    (h : mapGet m k1 = none) : mapGet (mapDelete m k) k1 = none := by
  by_cases hk : k1 = k
  · rw [hk]; exact mapGet_mapDelete_self m k
  · rw [mapGet_mapDelete_ne m k k1 hk]; exact h

theorem mapGet_mapSet_self {α : Type} (m : List (String × α)) (k : String) (v : α) :
    mapGet (mapSet m k v) k = some v := by
  simp [mapSet, mapGet]

theorem mapGet_mapSet_ne {α : Type} (m : List (String × α)) (k k1 : String) (v : α)
    (h : k1 ≠ k) : mapGet (mapSet m k v) k1 = mapGet m k1 := by
  have hk : ¬ k = k1 := fun e => h e.symm
  simp [mapSet, mapGet, hk, mapGet_mapDelete_ne m k k1 h]

/-! ## Keys of `allVMs` along the operations -/

theorem StopMachine_keysShrink (m : MachineManager) (vmID : String) (env : StopEnv) :
    KeysShrink m (StopMachine m vmID env).1 := by
  intro k hk
  cases h : mapGet m.allVMs vmID with
  | none => rw [StopMachine_absent m vmID env h]; exact hk
  | some p =>
    rw [(StopMachine_present m vmID env p h).1]
    exact mapGet_mapDelete_of_none _ _ _ hk

/-! ## Frame rules: what an operation can change -/

theorem subscribeTriggers_frame (P R : MachineManager → Prop) (vmmID : String)
    (env : DeployEnv)
    (hsub : ∀ s subs, P s → P { s with vmsubz := mapSet s.vmsubz vmmID subs })
    (hstop : ∀ s, P s → R (StopMachine s vmmID env.stop).1)
    (subjects : List String) (m : MachineManager) (h : P m) :
    (∀ m1, subscribeTriggers m vmmID env subjects = (m1, none) → P m1) ∧
    (∀ m1 out, subscribeTriggers m vmmID env subjects = (m1, some out) → R m1) := by
  induction subjects generalizing m with
  | nil =>
    constructor
    · intro m1 h1
      simp only [subscribeTriggers, Prod.mk.injEq] at h1
      exact h1.1 ▸ h
    · intro m1 out h1
      simp [subscribeTriggers] at h1
  | cons tsub rest ih =>
    unfold subscribeTriggers
    cases hs : env.subscribe tsub with
    | error e =>
      have hst := hstop m h
      constructor
      · intro m1 h1
        simp only at h1
        split at h1 <;> simp at h1
      · intro m1 out h1
        simp only at h1
        split at h1
        · rename_i m2 heq
          rw [heq] at hst
          simp only [Prod.mk.injEq] at h1
          exact h1.1 ▸ hst
        · rename_i m2 o _ heq
          rw [heq] at hst
          simp only [Prod.mk.injEq] at h1
          exact h1.1 ▸ hst
    | ok sub =>
      exact ih _ (hsub m _ h)

theorem deployTelemetry_frame (R : MachineManager → Prop) (p : Nat)
    (request : agentapi.DeployRequest)
    (hadd : ∀ s c v a, c ≠ Counter.vmCounter → R s → R (s.add c v a))
    (m : MachineManager) (h : R m) : R (deployTelemetry m p request).1 := by
  unfold deployTelemetry
  simp only
  split
  · exact h
  · split
    · exact h
    · refine hadd _ _ _ _ (by decide) (hadd _ _ _ _ (by decide) (hadd _ _ _ _ (by decide)
        (hadd _ _ _ _ (by decide) (hadd _ _ _ _ (by decide) (hadd _ _ _ _ (by decide)
        (hadd _ _ _ _ (by decide) (hadd _ _ _ _ (by decide) h)))))))

/-- What `DeployWorkload` on the record at `p` can do to the manager: write the record at `p`
without touching its id or its shutdown mark, log a request to the agent, bind trigger
subscriptions under the id of the record, stop the machine of that id, add to counters. -/
theorem DeployWorkload_frame (P R : MachineManager → Prop) (m : MachineManager) (p : Nat)
    (request : agentapi.DeployRequest) (env : DeployEnv)
    (hset : ∀ vm1 : runningFirecracker, vm1.shutdownCalled = (m.vmAt p).shutdownCalled →
      vm1.vmmID = (m.vmAt p).vmmID → vm1.deployRequest = some request →
      P m → P (m.setVM p vm1))
    (hreq : ∀ s x, P s → P { s with agentRequests := x })
    (hsub : ∀ s subs, P s → P { s with vmsubz := mapSet s.vmsubz (m.vmAt p).vmmID subs })
    (hstop : ∀ s, P s → R (StopMachine s (m.vmAt p).vmmID env.stop).1)
    (hPR : ∀ s, P s → R s)
    (hadd : ∀ s c v a, c ≠ Counter.vmCounter → R s → R (s.add c v a))
    (h : P m) : R (DeployWorkload m p request env).1 := by
  unfold DeployWorkload
  cases env.marshalErr with
  | some e => exact hPR m h
  | none =>
    cases request.Namespace with
    | none => exact hPR _ (hset _ rfl rfl rfl h)
    | some ns =>
      have h2 : P (bindDeployment m p request ns env.now) :=
        hreq _ _ (hset _ rfl rfl rfl h)
      cases env.agent with
      | deadlineExceeded => exact hPR _ h2
      | failed e => exact hPR _ h2
      | malformed e => exact hPR _ h2
      | reply resp =>
        simp only
        by_cases hacc : resp.Accepted = true
        · simp only [hacc, Bool.not_true, Bool.false_eq_true, if_false]
          by_cases hsup : request.SupportsTriggerSubjects = true
          · simp only [hsup, if_true]
            have hst := subscribeTriggers_frame P R (m.vmAt p).vmmID env hsub hstop
              request.TriggerSubjects _ h2
            split
            · rename_i m3 out heq
              exact hst.2 m3 out heq
            · rename_i m3 heq
              exact deployTelemetry_frame R p request hadd m3 (hPR _ (hst.1 m3 heq))
          · simp only [hsup, Bool.false_eq_true, if_false]
            exact deployTelemetry_frame R p request hadd _ (hPR _ h2)
        · simp only [hacc, Bool.not_false, if_true]
          have hst := hstop _ h2
          split
          · rename_i m3 heq
            rw [heq] at hst
            exact hst
          · rename_i m3 out _ heq
            rw [heq] at hst
            split <;> exact hst

theorem stopAll_frame (P : MachineManager → Prop) (env : StopEnv)
    (hstop : ∀ s vmID, P s → P (StopMachine s vmID env).1)
    (ids : List String) (m : MachineManager) (h : P m) : P (stopAll m env ids).1 := by
  induction ids generalizing m with
  | nil => exact h
  | cons vmID rest ih =>
    unfold stopAll
    have h1 := hstop m vmID h
    split
    · rename_i m1 heq
      rw [heq] at h1
      exact h1
    · rename_i m1 out _ heq
      rw [heq] at h1
      exact ih m1 h1

theorem Stop_frame (P : MachineManager → Prop) (env : StopEnv)
    (hstop : ∀ s vmID, P s → P (StopMachine s vmID env).1)
    (hclosing : ∀ s c, P s → P { s with closing := c })
    (hclosed : ∀ s b, P s → P { s with warmClosed := b })
    (m : MachineManager) (h : P m) : P (Stop m env).1 := by
  unfold Stop
  have h1 := hclosing m ((m.closing + 1) % 2 ^ 32) h
  simp only
  split
  · split
    · exact h1
    · exact stopAll_frame P env hstop _ _ (hclosed _ true h1)
  · exact h1

theorem receiveWarm_fields (m : MachineManager) :
    (receiveWarm m).1.allVMs = m.allVMs ∧ (receiveWarm m).1.vmsubz = m.vmsubz ∧
    (receiveWarm m).1.heap = m.heap ∧ (receiveWarm m).1.warmVMs = m.warmVMs.tail := by
  unfold receiveWarm
  cases hw : m.warmVMs with
  | nil => cases m.warmClosed <;> simp [hw]
  | cons p rest => simp

theorem step_absent (m : MachineManager) (op : Op) (k : String) (hreg : ¬ Registers op k)
    (h : mapGet m.allVMs k = none) : mapGet (step m op).allVMs k = none := by
  cases op with
  | warm launch =>
    simp only [step, warmStep]
    split
    · exact h
    · split
      · exact h
      · cases launch with
        | error e => exact h
        | ok l =>
          have hne : k ≠ l.vmmID := fun e => hreg e.symm
          simp only [MachineManager.add]
          rw [mapGet_mapSet_ne _ _ _ _ hne]
          exact h
  | deploy request env =>
    simp only [step]
    have hr := (receiveWarm_fields m).1
    split
    · rename_i m1 p heq
      rw [heq] at hr
      replace hr : m1.allVMs = m.allVMs := hr
      exact DeployWorkload_frame (fun s => mapGet s.allVMs k = none)
        (fun s => mapGet s.allVMs k = none) m1 p request env
        (fun _ _ _ _ hs => hs) (fun _ _ hs => hs) (fun _ _ hs => hs)
        (fun s hs => StopMachine_keysShrink s _ _ k hs) (fun _ hs => hs)
        (fun _ _ _ _ _ hs => hs) (by show mapGet m1.allVMs k = none; rw [hr]; exact h)
    · rename_i m1 r _ heq
      rw [heq] at hr
      replace hr : m1.allVMs = m.allVMs := hr
      rw [hr]
      exact h
  | stopMachine vmID env => exact StopMachine_keysShrink m vmID env k h
  | stop env =>
    exact Stop_frame (fun s => mapGet s.allVMs k = none) env
      (fun s vmID hs => StopMachine_keysShrink s vmID env k hs) (fun _ _ hs => hs)
      (fun _ _ hs => hs) m h

theorem run_absent (ops : List Op) (m : MachineManager) (k : String)
    (hreg : ∀ op ∈ ops, ¬ Registers op k) (h : mapGet m.allVMs k = none) :
    mapGet (run m ops).allVMs k = none := by
  induction ops generalizing m with
  | nil => exact h
  | cons op rest ih =>
    exact ih (step m op) (fun o ho => hreg o (List.mem_cons_of_mem _ ho))
      (step_absent m op k (hreg op (List.mem_cons_self _ _)) h)

/-- C7. `StopMachine` returns an error exactly when the id is not a key of `allVMs`, and then
the manager is unchanged: `allVMs`, `vmsubz`, the telemetry, the published events, the
requests sent to agents, the drained subscriptions and the VM records are as before. -/
theorem StopMachine_error_iff_unknown (m : MachineManager) (vmID : String) (env : StopEnv) :
    ((∃ e, (StopMachine m vmID env).2 = Outcome.err e) ↔ mapGet m.allVMs vmID = none) ∧
    (mapGet m.allVMs vmID = none →
      (StopMachine m vmID env).2 = Outcome.err ("failed to stop machine " ++ vmID) ∧
      (StopMachine m vmID env).1 = m) := by
  constructor
  · constructor
    · rintro ⟨e, he⟩
      cases h : mapGet m.allVMs vmID with
      | none => rfl
      | some p => exact absurd he ((StopMachine_present m vmID env p h).2.2.2.2.2.2.2 e)
    · intro h
      exact ⟨_, by rw [StopMachine_absent m vmID env h]⟩
  · intro h
    rw [StopMachine_absent m vmID env h]
    exact ⟨rfl, rfl⟩

/-- C7, at the id "vm9" on the manager holding only "vm1": an error, and nothing changed. -/
theorem StopMachine_error_iff_unknown_witness :
    (StopMachine boundExample "vm9" ⟨fun _ => none, fun _ => none⟩).2 =
        Outcome.err "failed to stop machine vm9" ∧
      (StopMachine boundExample "vm9" ⟨fun _ => none, fun _ => none⟩).1 = boundExample :=
  (StopMachine_error_iff_unknown boundExample "vm9" ⟨fun _ => none, fun _ => none⟩).2
    (by decide)

/-- C6. For an id present in `allVMs` (its deployment, if any, carrying a workload type, as
every request built by `handleDeploy` does), the first `StopMachine` returns nil, and
every later `StopMachine` of that id returns an error, whatever operations ran in between
that did not register the id again. -/
theorem StopMachine_first_nil_then_error (m : MachineManager) (vmID : String) (env : StopEnv)
    (p : Nat) (hpresent : mapGet m.allVMs vmID = some p)
    (htype : ∀ dr, (m.vmAt p).deployRequest = some dr → dr.WorkloadType ≠ none) :
    (StopMachine m vmID env).2 = Outcome.nil ∧
    ∀ (ops : List Op) (env1 : StopEnv), (∀ op ∈ ops, ¬ Registers op vmID) →
      (StopMachine (run (StopMachine m vmID env).1 ops) vmID env1).2 =
        Outcome.err ("failed to stop machine " ++ vmID) := by
  refine ⟨StopMachine_nil m vmID env p hpresent htype, ?_⟩
  intro ops env1 hreg
  have h0 : mapGet (StopMachine m vmID env).1.allVMs vmID = none := by
    rw [(StopMachine_present m vmID env p hpresent).1]
    exact mapGet_mapDelete_self _ _
  rw [StopMachine_absent _ vmID env1 (run_absent ops _ vmID hreg h0)]

/-- C6, at the bound VM "vm1": the first stop returns nil, the second an error. -/
theorem StopMachine_first_nil_then_error_witness :
    (StopMachine boundExample "vm1" ⟨fun _ => none, fun _ => none⟩).2 = Outcome.nil ∧
      (StopMachine (StopMachine boundExample "vm1" ⟨fun _ => none, fun _ => none⟩).1 "vm1"
        ⟨fun _ => none, fun _ => none⟩).2 = Outcome.err "failed to stop machine vm1" :=
  have h := StopMachine_first_nil_then_error boundExample "vm1" ⟨fun _ => none, fun _ => none⟩
    0 (by decide) (by decide)
  ⟨h.1, h.2 [] ⟨fun _ => none, fun _ => none⟩ (by simp)⟩

/-! ## The control listener: deploy -/

/-- C2, the code at a deploy signed by "Y" on a node whose valid issuers are "X" alone: the
error envelope is sent, and the handler goes on: the workload is cached, the VM is taken
from the pool, the deploy request goes to the agent, and a second reply reports success. -/
theorem handleDeploy_invalid_issuer_continues :
    validateIssuer "Y" warmExample.config.ValidIssuers = false ∧
    (handleDeploy ⟨warmExample, warmExample.config⟩
        ⟨fun r => Except.ok r.DecodedClaims, exampleCache,
          exampleDeploy (AgentReply.reply ⟨true, none⟩)⟩
        ⟨"$NEX.DEPLOY.ns1.NODE", Except.ok exampleRequest⟩).replies =
      [⟨ResponseType.RunResponseType, EnvelopeData.empty, some "invalid workload issuer: Y"⟩,
       ⟨ResponseType.RunResponseType, EnvelopeData.runResponse true "echo" "Y" "vm1", none⟩] ∧
    warmExample.warmVMs = [0] ∧
    (handleDeploy ⟨warmExample, warmExample.config⟩
        ⟨fun r => Except.ok r.DecodedClaims, exampleCache,
          exampleDeploy (AgentReply.reply ⟨true, none⟩)⟩
        ⟨"$NEX.DEPLOY.ns1.NODE", Except.ok exampleRequest⟩).mgr.warmVMs = [] ∧
    (handleDeploy ⟨warmExample, warmExample.config⟩
        ⟨fun r => Except.ok r.DecodedClaims, exampleCache,
          exampleDeploy (AgentReply.reply ⟨true, none⟩)⟩
        ⟨"$NEX.DEPLOY.ns1.NODE", Except.ok exampleRequest⟩).mgr.internalCache =
      [("echo", [1, 2, 3])] ∧
    (handleDeploy ⟨warmExample, warmExample.config⟩
        ⟨fun r => Except.ok r.DecodedClaims, exampleCache,
          exampleDeploy (AgentReply.reply ⟨true, none⟩)⟩
        ⟨"$NEX.DEPLOY.ns1.NODE", Except.ok exampleRequest⟩).mgr.agentRequests =
      ["agentint.vm1.deploy"] := by
  refine ⟨by decide, by decide, by decide, by decide, by decide, by decide⟩

/-! ## `DeployWorkload`: failure paths -/

/-- C3, the code when the deploy request to the agent of "vm1" times out, or fails otherwise:
`DeployWorkload` returns the error, `StopMachine` has not run (no undeploy request, no
shutdown), and the VM is still in `allVMs`. When the agent rejects, the VM is stopped. -/
theorem DeployWorkload_timeout_leaves_vm :
    (DeployWorkload (receiveWarm warmExample).1 0 exampleAgentRequest
        (exampleDeploy AgentReply.deadlineExceeded)).2 =
      Outcome.err "timed out waiting for acknowledgement of workload deployment" ∧
    mapGet (DeployWorkload (receiveWarm warmExample).1 0 exampleAgentRequest
        (exampleDeploy AgentReply.deadlineExceeded)).1.allVMs "vm1" = some 0 ∧
    ((DeployWorkload (receiveWarm warmExample).1 0 exampleAgentRequest
        (exampleDeploy AgentReply.deadlineExceeded)).1.vmAt 0).shutdownCalled = false ∧
    (DeployWorkload (receiveWarm warmExample).1 0 exampleAgentRequest
        (exampleDeploy AgentReply.deadlineExceeded)).1.agentRequests =
      ["agentint.vm1.deploy"] ∧
    (DeployWorkload (receiveWarm warmExample).1 0 exampleAgentRequest
        (exampleDeploy (AgentReply.failed "nats: no responders"))).2 =
      Outcome.err
        "failed to submit request for workload deployment: nats: no responders" ∧
    mapGet (DeployWorkload (receiveWarm warmExample).1 0 exampleAgentRequest
        (exampleDeploy (AgentReply.failed "nats: no responders"))).1.allVMs "vm1" = some 0 ∧
    mapGet (DeployWorkload (receiveWarm warmExample).1 0 exampleAgentRequest
        (exampleDeploy (AgentReply.reply ⟨false, some "no"⟩))).1.allVMs "vm1" = none := by
  refine ⟨by decide, by decide, by decide, by decide, by decide, by decide, by decide⟩

/-! ## Telemetry -/

/-- C5, the code on a VM with one vCPU and 256 MiB. Warm, then stopped: nothing was added for
it to the allocation counters, and the stop takes 1 and 256 from them. Deployed, rejected
by the agent, hence stopped: the stop takes 1 from the workload counter, 3 from the byte
counter, 1 and 256 from the allocation counters, and `DeployWorkload` returns before its
increments. Deployed, accepted, then stopped: every counter is back at zero. -/
theorem telemetry_not_conserved :
    counterValue (StopMachine warmExample "vm1" quietStop).1.t
        Counter.allocatedVCPUCounter AttrSet.none = -1 ∧
    counterValue (StopMachine warmExample "vm1" quietStop).1.t
        Counter.allocatedMemoryCounter (AttrSet.withNamespace "") = -256 ∧
    (DeployWorkload (receiveWarm warmExample).1 0 exampleAgentRequest
        (exampleDeploy (AgentReply.reply ⟨false, some "no"⟩))).2 =
      Outcome.err "workload rejected by agent: no" ∧
    counterValue (DeployWorkload (receiveWarm warmExample).1 0 exampleAgentRequest
        (exampleDeploy (AgentReply.reply ⟨false, some "no"⟩))).1.t
        Counter.workloadCounter (AttrSet.withWorkloadType "native") = -1 ∧
    counterValue (DeployWorkload (receiveWarm warmExample).1 0 exampleAgentRequest
        (exampleDeploy (AgentReply.reply ⟨false, some "no"⟩))).1.t
        Counter.deployedByteCounter (AttrSet.withNamespace "ns1") = -3 ∧
    counterValue (DeployWorkload (receiveWarm warmExample).1 0 exampleAgentRequest
        (exampleDeploy (AgentReply.reply ⟨false, some "no"⟩))).1.t
        Counter.allocatedVCPUCounter AttrSet.none = -1 ∧
    counterValue (DeployWorkload (receiveWarm warmExample).1 0 exampleAgentRequest
        (exampleDeploy (AgentReply.reply ⟨false, some "no"⟩))).1.t
        Counter.allocatedMemoryCounter (AttrSet.withNamespace "ns1") = -256 ∧
    (∀ c a, c ≠ Counter.vmCounter →
      counterValue (StopMachine (DeployWorkload (receiveWarm warmExample).1 0
          exampleAgentRequest (exampleDeploy (AgentReply.reply ⟨true, none⟩))).1 "vm1"
          quietStop).1.t c a = 0) := by
  refine ⟨by decide, by decide, by decide, by decide, by decide, by decide, by decide, ?_⟩
  intro c a hc
  have ht : (StopMachine (DeployWorkload (receiveWarm warmExample).1 0
      exampleAgentRequest (exampleDeploy (AgentReply.reply ⟨true, none⟩))).1 "vm1"
      quietStop).1.t =
      [⟨Counter.vmCounter, AttrSet.none, 1⟩,
       ⟨Counter.workloadCounter, ⟨none, some "native"⟩, 1⟩,
       ⟨Counter.workloadCounter, ⟨some "ns1", some "native"⟩, 1⟩,
       ⟨Counter.deployedByteCounter, ⟨none, none⟩, 3⟩,
       ⟨Counter.deployedByteCounter, ⟨some "ns1", none⟩, 3⟩,
       ⟨Counter.allocatedVCPUCounter, ⟨none, none⟩, 1⟩,
       ⟨Counter.allocatedVCPUCounter, ⟨some "ns1", none⟩, 1⟩,
       ⟨Counter.allocatedMemoryCounter, ⟨none, none⟩, 256⟩,
       ⟨Counter.allocatedMemoryCounter, ⟨some "ns1", none⟩, 256⟩,
       ⟨Counter.workloadCounter, ⟨none, some "native"⟩, -1⟩,
       ⟨Counter.workloadCounter, ⟨some "ns1", some "native"⟩, -1⟩,
       ⟨Counter.deployedByteCounter, ⟨none, none⟩, -3⟩,
       ⟨Counter.deployedByteCounter, ⟨some "ns1", none⟩, -3⟩,
       ⟨Counter.vmCounter, AttrSet.none, -1⟩,
       ⟨Counter.allocatedVCPUCounter, ⟨none, none⟩, -1⟩,
       ⟨Counter.allocatedVCPUCounter, ⟨some "ns1", none⟩, -1⟩,
       ⟨Counter.allocatedMemoryCounter, ⟨none, none⟩, -256⟩,
       ⟨Counter.allocatedMemoryCounter, ⟨some "ns1", none⟩, -256⟩] := by decide
  rw [ht]
  simp only [counterValue]
  cases c <;> simp at hc ⊢ <;> (repeat' split) <;> simp_all

/-! ## The payload cache -/

/-- C4, refuted: the claims of the request carry the hash "00", the digest of the fetched
bytes is another string, and `CacheWorkload` returns the size and that digest without an
error. -/
theorem CacheWorkload_hash_mismatch_accepted :
    exampleCache.sha256hex [1, 2, 3] ≠ exampleRequest.DecodedClaims.Hash ∧
    exampleCache.fetch exampleRequest.JsDomain "BUCKET" "echo" = Except.ok [1, 2, 3] ∧
    (CacheWorkload warmExample exampleRequest exampleCache).2 =
      CacheResult.ok 3 "039058c6f2c0cb492c533b0a4d14ef77cc0f78abccced5287d84a1a2011cfb81" := by
  refine ⟨by decide, rfl, by decide⟩

/-- C4, amended. `CacheWorkload` does not read the hash of the claims: when the artifact is
fetched and the write to the internal cache succeeds, it returns the size the cache reports
and the digest of the fetched bytes, with no error, whatever hash the claims carry. It returns
an error exactly when the fetch fails, and then that error with the manager unchanged; a
failure of the internal cache (its JetStream context, its object store or `PutBytes`) is a
panic and not an error; and a size and hash are returned only on the path where every step
succeeded. -/
theorem CacheWorkload_ignores_claim_hash (m : MachineManager)
    (request : controlapi.DeployRequest) (env : CacheEnv) (claimHash : String) :
    (CacheWorkload m
        { request with DecodedClaims := { request.DecodedClaims with Hash := claimHash } }
        env).2 = (CacheWorkload m request env).2 ∧
    (∀ workload size,
      env.fetch request.JsDomain request.Location.Host (Trim request.Location.Path '/') =
        Except.ok workload →
      env.jsInternalErr = none → env.cacheErr = none →
      env.putBytes request.DecodedClaims.Subject workload = Except.ok size →
      (CacheWorkload m request env).2 = CacheResult.ok size (env.sha256hex workload)) ∧
    (∀ e,
      env.fetch request.JsDomain request.Location.Host (Trim request.Location.Path '/') =
        Except.error e →
      (CacheWorkload m request env) = (m, CacheResult.err e)) ∧
    (∀ e,
      (CacheWorkload m request env).2 = CacheResult.err e ↔
      env.fetch request.JsDomain request.Location.Host (Trim request.Location.Path '/') =
        Except.error e) ∧
    ((CacheWorkload m request env).2 = CacheResult.panicked ↔
      ∃ workload,
        env.fetch request.JsDomain request.Location.Host (Trim request.Location.Path '/') =
          Except.ok workload ∧
        (env.jsInternalErr ≠ none ∨ env.cacheErr ≠ none ∨
          ∃ e, env.putBytes request.DecodedClaims.Subject workload = Except.error e)) ∧
    (∀ size hash,
      (CacheWorkload m request env).2 = CacheResult.ok size hash ↔
      ∃ workload,
        env.fetch request.JsDomain request.Location.Host (Trim request.Location.Path '/') =
          Except.ok workload ∧
        env.jsInternalErr = none ∧ env.cacheErr = none ∧
        env.putBytes request.DecodedClaims.Subject workload = Except.ok size ∧
        hash = env.sha256hex workload) := by
  refine ⟨?_, ?_, ?_, ?_, ?_, ?_⟩
  · simp only [CacheWorkload]
  · intro workload size hf hj hc hp
    simp [CacheWorkload, hf, hj, hc, hp]
  · intro e hf
    simp [CacheWorkload, hf]
  · intro e
    cases hf : env.fetch request.JsDomain request.Location.Host
        (Trim request.Location.Path '/') with
    | error e1 => simp [CacheWorkload, hf]
    | ok workload =>
      cases hj : env.jsInternalErr with
      | some x => simp [CacheWorkload, hf, hj]
      | none =>
        cases hc : env.cacheErr with
        | some x => simp [CacheWorkload, hf, hj, hc]
        | none =>
          cases hp : env.putBytes request.DecodedClaims.Subject workload with
          | error x => simp [CacheWorkload, hf, hj, hc, hp]
          | ok size => simp [CacheWorkload, hf, hj, hc, hp]
  · cases hf : env.fetch request.JsDomain request.Location.Host
        (Trim request.Location.Path '/') with
    | error e1 => simp [CacheWorkload, hf]
    | ok workload =>
      cases hj : env.jsInternalErr with
      | some x => simp [CacheWorkload, hf, hj]
      | none =>
        cases hc : env.cacheErr with
        | some x => simp [CacheWorkload, hf, hj, hc]
        | none =>
          cases hp : env.putBytes request.DecodedClaims.Subject workload with
          | error x => simp [CacheWorkload, hf, hj, hc, hp]
          | ok size => simp [CacheWorkload, hf, hj, hc, hp]
  · intro size hash
    cases hf : env.fetch request.JsDomain request.Location.Host
        (Trim request.Location.Path '/') with
    | error e1 => simp [CacheWorkload, hf]
    | ok workload =>
      cases hj : env.jsInternalErr with
      | some x => simp [CacheWorkload, hf, hj]
      | none =>
        cases hc : env.cacheErr with
        | some x => simp [CacheWorkload, hf, hj, hc]
        | none =>
          cases hp : env.putBytes request.DecodedClaims.Subject workload with
          | error x => simp [CacheWorkload, hf, hj, hc, hp]
          | ok sz =>
            have hr : (CacheWorkload m request env).2 =
                CacheResult.ok sz (env.sha256hex workload) := by
              simp [CacheWorkload, hf, hj, hc, hp]
            rw [hr]
            constructor
            · intro h
              injection h with h1 h2
              subst h1
              exact ⟨workload, rfl, rfl, rfl, hp, h2.symm⟩
            · rintro ⟨w, hw, -, -, hsz, hh⟩
              injection hw with hw
              subst hw
              rw [hp] at hsz
              injection hsz with hsz
              subst hsz
              rw [hh]

/-- C4 amended, at the request whose claims carry the hash "00": the result is the digest of
the bytes, as it is for claims that carry the digest itself; and with a cache whose
`PutBytes` fails the call panics and returns no error. -/
theorem CacheWorkload_ignores_claim_hash_witness :
    (CacheWorkload warmExample exampleRequest exampleCache).2 =
      CacheResult.ok 3 "039058c6f2c0cb492c533b0a4d14ef77cc0f78abccced5287d84a1a2011cfb81" ∧
    (CacheWorkload warmExample exampleRequest failingPutCache).2 = CacheResult.panicked ∧
    (CacheWorkload warmExample exampleRequest failingPutCache).2 ≠
      CacheResult.err "put failed" :=
  ⟨(CacheWorkload_ignores_claim_hash warmExample exampleRequest exampleCache "00").2.1
      [1, 2, 3] 3 rfl rfl rfl rfl,
   (CacheWorkload_ignores_claim_hash warmExample exampleRequest failingPutCache "00").2.2.2.2.1.mpr
      ⟨[1, 2, 3], rfl, Or.inr (Or.inr ⟨"put failed", rfl⟩)⟩,
   fun h =>
    absurd ((CacheWorkload_ignores_claim_hash warmExample exampleRequest failingPutCache
      "00").2.2.2.1 "put failed" |>.mp h) (by simp [failingPutCache, exampleCache])⟩

/-! ## More on Go maps and the heap -/

theorem mem_of_mapGet {α : Type} (m : List (String × α)) (k : String) (v : α)
    (h : mapGet m k = some v) : (k, v) ∈ m := by
  induction m with
  | nil => simp [mapGet] at h
  | cons kv rest ih =>
    obtain ⟨k1, v1⟩ := kv
    simp only [mapGet] at h
    by_cases hk : k1 = k
    · rw [if_pos hk] at h
      cases h
      rw [hk]
      exact List.mem_cons_self _ _
    · rw [if_neg hk] at h
      exact List.mem_cons_of_mem _ (ih h)

theorem mapGet_of_mem {α : Type} (m : List (String × α)) (k : String) (v : α)
    (hnd : (m.map Prod.fst).Nodup) (h : (k, v) ∈ m) : mapGet m k = some v := by
  induction m with
  | nil => cases h
  | cons kv rest ih =>
    obtain ⟨k1, v1⟩ := kv
    simp only [List.map_cons, List.nodup_cons] at hnd
    rcases List.mem_cons.1 h with heq | hmem
    · cases heq
      simp [mapGet]
    · have hk : ¬ k1 = k := by
        intro e
        apply hnd.1
        rw [e]
        exact List.mem_map.2 ⟨(k, v), hmem, rfl⟩
      simp only [mapGet, if_neg hk]
      exact ih hnd.2 hmem

theorem mem_mapDelete {α : Type} (m : List (String × α)) (k : String) (kv : String × α) :
    kv ∈ mapDelete m k ↔ kv ∈ m ∧ kv.1 ≠ k := by
  simp [mapDelete, List.mem_filter]

theorem mapDelete_sublist {α : Type} (m : List (String × α)) (k : String) :
    (mapDelete m k).Sublist m := List.filter_sublist m

theorem mapDelete_of_none {α : Type} (m : List (String × α)) (k : String)
    (h : mapGet m k = none) : mapDelete m k = m := by
  induction m with
  | nil => rfl
  | cons kv rest ih =>
    obtain ⟨k1, v1⟩ := kv
    simp only [mapGet] at h
    by_cases hk : k1 = k
    · rw [if_pos hk] at h
      cases h
    · rw [if_neg hk] at h
      rw [mapDelete_cons, if_neg hk, ih h]

theorem getD_set_ne (heap : List runningFirecracker) (p q : Nat) (v : runningFirecracker)
    (h : q ≠ p) : (heap.set p v).getD q default = heap.getD q default := by
  simp [List.getD_eq_getElem?_getD, List.getElem?_set_ne (Ne.symm h)]

theorem getD_set_self (heap : List runningFirecracker) (p : Nat) (v : runningFirecracker)
    (h : p < heap.length) : (heap.set p v).getD p default = v := by
  simp [List.getD_eq_getElem?_getD, List.getElem?_set_self h]

theorem getD_append_left (heap : List runningFirecracker) (q : Nat) (v : runningFirecracker)
    (h : q < heap.length) : (heap ++ [v]).getD q default = heap.getD q default := by
  simp [List.getD_eq_getElem?_getD, List.getElem?_append_left h]

theorem getD_append_length (heap : List runningFirecracker) (v : runningFirecracker) :
    (heap ++ [v]).getD heap.length default = v := by
  simp [List.getD_eq_getElem?_getD]

theorem vmAt_setVM_shutdownCalled (m : MachineManager) (p q : Nat) (vm1 : runningFirecracker)
    (h : vm1.shutdownCalled = (m.vmAt p).shutdownCalled) :
    ((m.setVM p vm1).vmAt q).shutdownCalled = (m.vmAt q).shutdownCalled := by
  unfold MachineManager.vmAt MachineManager.setVM at *
  by_cases hq : q = p
  · subst hq
    by_cases hl : q < m.heap.length
    · simp only [getD_set_self m.heap q vm1 hl]
      exact h
    · have : m.heap.set q vm1 = m.heap := by
        apply List.ext_getElem? 
        intro i
        by_cases hi : i = q
        · subst hi
          have hle : m.heap.length ≤ i := Nat.le_of_not_lt hl
          simp [List.getElem?_eq_none hle, hle]
        · rw [List.getElem?_set_ne (Ne.symm hi)]
      simp only [this]
  · simp only [getD_set_ne m.heap p q vm1 hq]

/-! ## The invariant of the pool -/

theorem PoolInv_setVM (m : MachineManager) (p : Nat) (vm1 : runningFirecracker)
    (h : vm1.shutdownCalled = (m.vmAt p).shutdownCalled) (hinv : PoolInv m) :
    PoolInv (m.setVM p vm1) := by
  obtain ⟨⟨hk, hp, hmem⟩, hchan⟩ := hinv
  have hlen : (m.setVM p vm1).heap.length = m.heap.length := by
    simp [MachineManager.setVM]
  refine ⟨⟨hk, hp, ?_⟩, ?_⟩
  · intro kp hkp
    rw [hlen, vmAt_setVM_shutdownCalled m p kp.2 vm1 h]
    exact hmem kp hkp
  · intro q hq
    rw [hlen, vmAt_setVM_shutdownCalled m p q vm1 h]
    exact hchan q hq

theorem PoolInv_StopMachine (m : MachineManager) (vmID : String) (env : StopEnv)
    (hinv : PoolInv m) : PoolInv (StopMachine m vmID env).1 := by
  cases h : mapGet m.allVMs vmID with
  | none => rw [StopMachine_absent m vmID env h]; exact hinv
  | some p =>
    obtain ⟨hall, _, hheap, hwarm, _⟩ := StopMachine_present m vmID env p h
    obtain ⟨⟨hk, hp, hmem⟩, hchan⟩ := hinv
    have hpm : (vmID, p) ∈ m.allVMs := mem_of_mapGet _ _ _ h
    have hplt : p < m.heap.length := (hmem _ hpm).1
    have hvm : ∀ q, ((StopMachine m vmID env).1.vmAt q).shutdownCalled =
        if q = p then true else (m.vmAt q).shutdownCalled := by
      intro q
      unfold MachineManager.vmAt
      rw [hheap]
      by_cases hq : q = p
      · subst hq
        rw [getD_set_self _ _ _ hplt]
        simp
      · rw [getD_set_ne _ _ _ _ hq]
        simp [hq]
    have hlen : (StopMachine m vmID env).1.heap.length = m.heap.length := by
      rw [hheap]
      simp
    refine ⟨⟨?_, ?_, ?_⟩, ?_⟩
    · rw [hall]
      exact hk.sublist ((mapDelete_sublist _ _).map _)
    · rw [hall]
      exact hp.sublist ((mapDelete_sublist _ _).map _)
    · intro kp hkp
      rw [hall] at hkp
      obtain ⟨hkm, hne⟩ := (mem_mapDelete _ _ _).1 hkp
      have hqp : kp.2 ≠ p := by
        intro e
        have hkp2 : kp = (vmID, p) := List.inj_on_of_nodup_map hp hkm hpm e
        exact hne (by rw [hkp2])
      rw [hlen, hvm, if_neg hqp]
      exact hmem kp hkm
    · intro q hq
      rw [hwarm] at hq
      obtain ⟨hql, hor⟩ := hchan q hq
      refine ⟨by rw [hlen]; exact hql, ?_⟩
      rw [hvm]
      by_cases hqp : q = p
      · right
        simp [hqp]
      · rcases hor with ⟨k, hkq⟩ | hsd
        · left
          refine ⟨k, ?_⟩
          rw [hall]
          refine (mem_mapDelete _ _ _).2 ⟨hkq, ?_⟩
          intro e
          have hget := mapGet_of_mem _ _ _ hk hkq
          simp only at e
          rw [e, h] at hget
          exact hqp (Option.some.inj hget).symm
        · right
          simp [hqp, hsd]

theorem PoolInv_warmStep (m : MachineManager) (launch : Except String Launched)
    (hfresh : FreshLaunch m (Op.warm launch)) (hinv : PoolInv m) :
    PoolInv (warmStep m launch) := by
  unfold warmStep
  split
  · exact hinv
  · split
    · exact hinv
    · cases launch with
      | error e => exact hinv
      | ok l =>
        have hnone : mapGet m.allVMs l.vmmID = none := hfresh
        obtain ⟨⟨hk, hp, hmem⟩, hchan⟩ := hinv
        have hdel : mapDelete m.allVMs l.vmmID = m.allVMs := mapDelete_of_none _ _ hnone
        have hkey : l.vmmID ∉ m.allVMs.map Prod.fst := by
          intro hin
          obtain ⟨kp, hkp, hfst⟩ := List.mem_map.1 hin
          have hg := mapGet_of_mem m.allVMs kp.1 kp.2 hk hkp
          rw [hfst, hnone] at hg
          cases hg
        have hptr : m.heap.length ∉ m.allVMs.map Prod.snd := by
          intro hin
          obtain ⟨kp, hkp, hsnd⟩ := List.mem_map.1 hin
          have := (hmem kp hkp).1
          omega
        simp only [MachineManager.add]
        refine ⟨⟨?_, ?_, ?_⟩, ?_⟩
        · simp only [mapSet, hdel, List.map_cons, List.nodup_cons]
          exact ⟨hkey, hk⟩
        · simp only [mapSet, hdel, List.map_cons, List.nodup_cons]
          exact ⟨hptr, hp⟩
        · intro kp hkp
          simp only [mapSet, hdel, List.mem_cons] at hkp
          simp only [MachineManager.vmAt, List.length_append, List.length_singleton]
          rcases hkp with heq | hold
          · subst heq
            simp only [getD_append_length]
            exact ⟨by omega, rfl⟩
          · have := hmem kp hold
            rw [getD_append_left _ _ _ this.1]
            exact ⟨by omega, this.2⟩
        · intro q hq
          simp only [List.mem_append, List.mem_singleton] at hq
          simp only [MachineManager.vmAt, List.length_append, List.length_singleton, mapSet,
            hdel, List.mem_cons]
          rcases hq with hold | hnew
          · obtain ⟨hql, hor⟩ := hchan q hold
            rw [getD_append_left _ _ _ hql]
            refine ⟨by omega, ?_⟩
            rcases hor with ⟨k, hkq⟩ | hsd
            · exact Or.inl ⟨k, Or.inr hkq⟩
            · exact Or.inr hsd
          · subst hnew
            exact ⟨by omega, Or.inl ⟨l.vmmID, Or.inl rfl⟩⟩

theorem PoolInv_receiveWarm (m : MachineManager) (hinv : PoolInv m) :
    PoolInv (receiveWarm m).1 := by
  obtain ⟨hall, _, hheap, hwarm⟩ := receiveWarm_fields m
  obtain ⟨⟨hk, hp, hmem⟩, hchan⟩ := hinv
  refine ⟨⟨by rw [hall]; exact hk, by rw [hall]; exact hp, ?_⟩, ?_⟩
  · intro kp hkp
    rw [hall] at hkp
    simp only [MachineManager.vmAt, hheap]
    exact hmem kp hkp
  · intro q hq
    rw [hwarm] at hq
    simp only [MachineManager.vmAt, hheap, hall]
    exact hchan q (List.mem_of_mem_tail hq)

theorem PoolInv_step (m : MachineManager) (op : Op) (hfresh : FreshLaunch m op)
    (hinv : PoolInv m) : PoolInv (step m op) := by
  cases op with
  | warm launch => exact PoolInv_warmStep m launch hfresh hinv
  | deploy request env =>
    simp only [step]
    have hr := PoolInv_receiveWarm m hinv
    split
    · rename_i m1 p heq
      rw [heq] at hr
      exact DeployWorkload_frame PoolInv PoolInv m1 p request env
        (fun vm1 h1 _ _ hs => PoolInv_setVM m1 p vm1 h1 hs) (fun _ _ hs => hs)
        (fun _ _ hs => hs) (fun s hs => PoolInv_StopMachine s _ _ hs) (fun _ hs => hs)
        (fun _ _ _ _ _ hs => hs) hr
    · rename_i m1 r _ heq
      rw [heq] at hr
      exact hr
  | stopMachine vmID env => exact PoolInv_StopMachine m vmID env hinv
  | stop env =>
    exact Stop_frame PoolInv env (fun s vmID hs => PoolInv_StopMachine s vmID env hs)
      (fun _ _ hs => hs) (fun _ _ hs => hs) m hinv

theorem PoolInv_new (config : NodeConfiguration) (publicKey : String) :
    PoolInv (NewMachineManager config publicKey) := by
  refine ⟨⟨?_, ?_, ?_⟩, ?_⟩ <;> simp [NewMachineManager, InvChan]

theorem PoolInv_of_reachableBy (adm : MachineManager → Op → Prop)
    (hadm : ∀ s op, adm s op → FreshLaunch s op) (m0 m : MachineManager)
    (h0 : PoolInv m0) (h : ReachableBy adm m0 m) : PoolInv m := by
  induction h with
  | init => exact h0
  | next op _ ha ih => exact PoolInv_step _ op (hadm _ op ha) ih

/-- C9, refuted: after one pass of the warming loop and `Stop`, a reachable state, the record
of the VM "vm1" is still held in the channel `warmVMs` and `allVMs` is empty. -/
theorem warm_channel_holds_stopped_vm :
    Reachable stoppedExample ∧ (Stop warmExample quietStop).2 = Outcome.nil ∧
      stoppedExample = (Stop warmExample quietStop).1 ∧
      0 ∈ stoppedExample.warmVMs ∧ stoppedExample.allVMs = [] ∧
      (stoppedExample.vmAt 0).vmmID = "vm1" ∧
      (stoppedExample.vmAt 0).shutdownCalled = true := by
  refine ⟨⟨⟨1, ["native", "v8"], ["X"]⟩, "NODE", ?_⟩, by decide, rfl, by decide, by decide,
    by decide, by decide⟩
  exact ReachableBy.next (Op.stop quietStop)
    (ReachableBy.next (Op.warm (Except.ok ⟨"vm1", 1, 256, 0⟩)) ReachableBy.init rfl) trivial

/-- C9, amended. In every state reachable by the warming loop, allocation and
`DeployWorkload`, `StopMachine` and `Stop`, every VM record held in the channel `warmVMs`
is a value of `allVMs` or has had `shutdown` called on it, and `allVMs` contains no VM on
which `shutdown` has been called. -/
theorem pool_invariant (m : MachineManager) (h : Reachable m) :
    (∀ p ∈ m.warmVMs, (∃ k, (k, p) ∈ m.allVMs) ∨ (m.vmAt p).shutdownCalled = true) ∧
    (∀ kp ∈ m.allVMs, (m.vmAt kp.2).shutdownCalled = false) := by
  obtain ⟨config, publicKey, hr⟩ := h
  have hinv := PoolInv_of_reachableBy FreshLaunch (fun _ _ ha => ha) _ m
    (PoolInv_new config publicKey) hr
  exact ⟨fun p hp => (hinv.2 p hp).2, fun kp hkp => (hinv.1.2.2 kp hkp).2⟩

/-- C9 amended, at the node after one warming pass and `Stop`: the queued record of "vm1" is
not in `allVMs`, and `shutdown` has been called on it. -/
theorem pool_invariant_witness :
    (∀ p ∈ stoppedExample.warmVMs,
      (∃ k, (k, p) ∈ stoppedExample.allVMs) ∨ (stoppedExample.vmAt p).shutdownCalled = true) ∧
    (∀ kp ∈ stoppedExample.allVMs, (stoppedExample.vmAt kp.2).shutdownCalled = false) :=
  pool_invariant stoppedExample
    ⟨⟨1, ["native", "v8"], ["X"]⟩, "NODE",
      ReachableBy.next (Op.stop quietStop)
        (ReachableBy.next (Op.warm (Except.ok ⟨"vm1", 1, 256, 0⟩)) ReachableBy.init rfl)
        trivial⟩

/-! ## The trigger-binding table -/

theorem StopMachine_clears_vmsubz (m : MachineManager) (vmID : String) (env : StopEnv)
    (h : ∀ e, (StopMachine m vmID env).2 ≠ Outcome.err e) :
    mapGet (StopMachine m vmID env).1.vmsubz vmID = none := by
  cases hg : mapGet m.allVMs vmID with
  | none =>
    exact absurd (by rw [StopMachine_absent m vmID env hg]) (h ("failed to stop machine " ++ vmID))
  | some p =>
    rw [(StopMachine_present m vmID env p hg).2.1]
    exact mapGet_mapDelete_self _ _

theorem SubzInv_StopMachine (m : MachineManager) (vmID : String) (env : StopEnv)
    (hinv : SubzInv m) : SubzInv (StopMachine m vmID env).1 := by
  cases h : mapGet m.allVMs vmID with
  | none => rw [StopMachine_absent m vmID env h]; exact hinv
  | some p =>
    obtain ⟨hall, hsubz, _⟩ := StopMachine_present m vmID env p h
    intro k hk
    rw [hsubz] at hk
    rw [hall]
    by_cases hkv : k = vmID
    · rw [hkv, mapGet_mapDelete_self] at hk
      exact absurd rfl hk
    · rw [mapGet_mapDelete_ne _ _ _ hkv] at hk ⊢
      exact hinv k hk

theorem SubzInv_warmStep (m : MachineManager) (launch : Except String Launched)
    (hinv : SubzInv m) : SubzInv (warmStep m launch) := by
  unfold warmStep
  split
  · exact hinv
  · split
    · exact hinv
    · cases launch with
      | error e => exact hinv
      | ok l =>
        intro k hk
        simp only [MachineManager.add] at hk ⊢
        by_cases hkl : k = l.vmmID
        · rw [hkl, mapGet_mapSet_self]
          simp
        · rw [mapGet_mapSet_ne _ _ _ _ hkl]
          exact hinv k hk

theorem SubzInv_step (m : MachineManager) (op : Op) (hlive : LiveDeploy m op)
    (hinv : SubzInv m) : SubzInv (step m op) := by
  cases op with
  | warm launch => exact SubzInv_warmStep m launch hinv
  | deploy request env =>
    simp only [step]
    cases hw : m.warmVMs with
    | nil =>
      have hr : (receiveWarm m).1 = m := by
        unfold receiveWarm
        rw [hw]
        cases m.warmClosed <;> rfl
      have hne : ∀ p, (receiveWarm m).2 ≠ Received.vm p := by
        intro p
        unfold receiveWarm
        rw [hw]
        cases m.warmClosed <;> simp
      split
      · rename_i m1 p heq
        exact absurd (by rw [heq]) (hne p)
      · rename_i m1 r _ heq
        have : m1 = m := by rw [← hr, heq]
        rw [this]
        exact hinv
    | cons p rest =>
      have hr : receiveWarm m = ({ m with warmVMs := rest }, Received.vm p) := by
        unfold receiveWarm
        rw [hw]
      have hl : mapGet m.allVMs (m.vmAt p).vmmID ≠ none := by
        have := hlive
        simp only [LiveDeploy, hw] at this
        exact this
      rw [hr]
      simp only
      exact DeployWorkload_frame
        (fun s => SubzInv s ∧ mapGet s.allVMs (m.vmAt p).vmmID ≠ none) SubzInv
        { m with warmVMs := rest } p request env
        (fun _ _ _ _ hs => hs) (fun _ _ hs => hs)
        (fun s subs hs => ⟨by
          intro k hk
          by_cases hkv : k = (m.vmAt p).vmmID
          · rw [hkv]
            exact hs.2
          · have hk1 : mapGet (mapSet s.vmsubz (m.vmAt p).vmmID subs) k ≠ none := hk
            rw [mapGet_mapSet_ne _ _ _ _ hkv] at hk1
            exact hs.1 k hk1, hs.2⟩)
        (fun s hs => SubzInv_StopMachine s _ _ hs.1) (fun _ hs => hs.1)
        (fun _ _ _ _ _ hs => hs) ⟨hinv, hl⟩
  | stopMachine vmID env => exact SubzInv_StopMachine m vmID env hinv
  | stop env =>
    exact Stop_frame SubzInv env (fun s vmID hs => SubzInv_StopMachine s vmID env hs)
      (fun _ _ hs => hs) (fun _ _ hs => hs) m hinv

theorem SubzInv_of_reachableBy (adm : MachineManager → Op → Prop)
    (hadm : ∀ s op, adm s op → LiveDeploy s op) (m0 m : MachineManager)
    (h0 : SubzInv m0) (h : ReachableBy adm m0 m) : SubzInv m := by
  induction h with
  | init => exact h0
  | next op _ ha ih => exact SubzInv_step _ op (hadm _ op ha) ih

theorem reachable_of_reachableLive (m : MachineManager) (h : ReachableLive m) :
    Reachable m := by
  obtain ⟨config, publicKey, hr⟩ := h
  refine ⟨config, publicKey, ?_⟩
  induction hr with
  | init => exact ReachableBy.init
  | next op _ ha ih => exact ReachableBy.next op ih ha.1

/-- C8, refuted: after a warming pass and `Stop`, the record of "vm1" is still queued; a
deploy receives it, the reply is an acceptance, and a subscription is bound under "vm1",
which is no longer a key of `allVMs`. In this reachable state `StopMachine` of "vm1" returns
an error and the entry for "vm1" stays in `vmsubz`. -/
theorem vmsubz_entry_survives_failed_stop :
    Reachable staleDeployExample ∧
    (Stop warmExample quietStop).2 = Outcome.nil ∧
    receiveWarm stoppedExample = ({ stoppedExample with warmVMs := [] }, Received.vm 0) ∧
    DeployWorkload { stoppedExample with warmVMs := [] } 0 triggerRequest
        (exampleDeploy (AgentReply.reply ⟨true, none⟩)) =
      (staleDeployExample, Outcome.nil) ∧
    (StopMachine staleDeployExample "vm1" quietStop).2 =
      Outcome.err "failed to stop machine vm1" ∧
    mapGet (StopMachine staleDeployExample "vm1" quietStop).1.vmsubz "vm1" =
      some [⟨"a.b"⟩] := by
  refine ⟨⟨⟨1, ["native", "v8"], ["X"]⟩, "NODE", ?_⟩, by decide, by decide, by decide,
    by decide, by decide⟩
  exact ReachableBy.next (Op.deploy triggerRequest (exampleDeploy (AgentReply.reply ⟨true, none⟩)))
    (ReachableBy.next (Op.stop quietStop)
      (ReachableBy.next (Op.warm (Except.ok ⟨"vm1", 1, 256, 0⟩)) ReachableBy.init rfl) trivial)
    trivial

/-- C8, amended. In every reachable state in which each deploy ran on a VM whose id was
still a key of `allVMs`, whenever `StopMachine` of an id returns, with or without an error,
`vmsubz` has no entry for that id; and in any state whatever, a `StopMachine` that does not
return an error leaves no entry for the id. -/
theorem vmsubz_cleared_after_stop (m : MachineManager) (h : ReachableLive m) :
    (∀ vmID env, mapGet (StopMachine m vmID env).1.vmsubz vmID = none) ∧
    (∀ (s : MachineManager) vmID env, (∀ e, (StopMachine s vmID env).2 ≠ Outcome.err e) →
      mapGet (StopMachine s vmID env).1.vmsubz vmID = none) := by
  refine ⟨?_, fun s vmID env hne => StopMachine_clears_vmsubz s vmID env hne⟩
  obtain ⟨config, publicKey, hr⟩ := h
  have hinv : SubzInv m := SubzInv_of_reachableBy _ (fun _ _ ha => ha.2) _ m
    (by intro k hk; simp [NewMachineManager, mapGet] at hk) hr
  intro vmID env
  cases hg : mapGet m.allVMs vmID with
  | none =>
    rw [StopMachine_absent m vmID env hg]
    by_contra hk
    exact hinv vmID hk hg
  | some p =>
    rw [(StopMachine_present m vmID env p hg).2.1]
    exact mapGet_mapDelete_self _ _

/-- C8 amended, at the node on which "vm1" runs a workload bound to the trigger subject
"a.b": the entry is there before the stop and gone after it. -/
theorem vmsubz_cleared_after_stop_witness :
    mapGet liveDeployExample.vmsubz "vm1" = some [⟨"a.b"⟩] ∧
    mapGet (StopMachine liveDeployExample "vm1" quietStop).1.vmsubz "vm1" = none :=
  ⟨by decide,
    (vmsubz_cleared_after_stop liveDeployExample
      ⟨⟨1, ["native", "v8"], ["X"]⟩, "NODE",
        ReachableBy.next
          (Op.deploy triggerRequest (exampleDeploy (AgentReply.reply ⟨true, none⟩)))
          (ReachableBy.next (Op.warm (Except.ok ⟨"vm1", 1, 256, 0⟩)) ReachableBy.init
            ⟨rfl, trivial⟩)
          ⟨trivial, show mapGet warmExample.allVMs (warmExample.vmAt 0).vmmID ≠ none
            from by decide⟩⟩).1 "vm1" quietStop⟩

/-! ## Deployments carry a workload type -/

theorem vmAt_mem_or_default (m : MachineManager) (p : Nat) :
    m.vmAt p ∈ m.heap ∨ m.vmAt p = default := by
  unfold MachineManager.vmAt
  by_cases h : p < m.heap.length
  · left
    rw [List.getD_eq_getElem _ _ h]
    exact List.getElem_mem h
  · right
    exact List.getD_eq_default _ _ (Nat.le_of_not_lt h)

theorem TypedInv_vmAt (m : MachineManager) (h : TypedInv m) (p : Nat) :
    ∀ dr, (m.vmAt p).deployRequest = some dr → dr.WorkloadType ≠ none := by
  intro dr hdr
  rcases vmAt_mem_or_default m p with hmem | hdef
  · exact h _ hmem dr hdr
  · rw [hdef] at hdr
    cases hdr

theorem TypedInv_StopMachine (m : MachineManager) (vmID : String) (env : StopEnv)
    (hinv : TypedInv m) : TypedInv (StopMachine m vmID env).1 := by
  cases h : mapGet m.allVMs vmID with
  | none => rw [StopMachine_absent m vmID env h]; exact hinv
  | some p =>
    intro vm hvm dr hdr
    rw [(StopMachine_present m vmID env p h).2.2.1] at hvm
    rcases List.mem_or_eq_of_mem_set hvm with hold | hnew
    · exact hinv vm hold dr hdr
    · rw [hnew] at hdr
      exact TypedInv_vmAt m hinv p dr hdr

theorem TypedInv_step (m : MachineManager) (op : Op) (htyped : TypedDeploy m op)
    (hinv : TypedInv m) : TypedInv (step m op) := by
  cases op with
  | warm launch =>
    simp only [step, warmStep]
    split
    · exact hinv
    · split
      · exact hinv
      · cases launch with
        | error e => exact hinv
        | ok l =>
          intro vm hvm dr hdr
          simp only [MachineManager.add, List.mem_append, List.mem_singleton] at hvm
          rcases hvm with hold | hnew
          · exact hinv vm hold dr hdr
          · rw [hnew] at hdr
            cases hdr
  | deploy request env =>
    simp only [step]
    have hr := (receiveWarm_fields m).2.2.1
    have ht : request.WorkloadType ≠ none := htyped
    split
    · rename_i m1 p heq
      rw [heq] at hr
      replace hr : m1.heap = m.heap := hr
      exact DeployWorkload_frame TypedInv TypedInv m1 p request env
        (fun vm1 _ _ hreq hs => by
          intro vm hvm dr hdr
          rcases List.mem_or_eq_of_mem_set hvm with hold | hnew
          · exact hs vm hold dr hdr
          · rw [hnew, hreq] at hdr
            cases hdr
            exact ht)
        (fun _ _ hs => hs) (fun _ _ hs => hs)
        (fun s hs => TypedInv_StopMachine s _ _ hs) (fun _ hs => hs)
        (fun _ _ _ _ _ hs => hs)
        (by intro vm hvm; rw [hr] at hvm; exact hinv vm hvm)
    · rename_i m1 r _ heq
      rw [heq] at hr
      replace hr : m1.heap = m.heap := hr
      intro vm hvm
      rw [hr] at hvm
      exact hinv vm hvm
  | stopMachine vmID env => exact TypedInv_StopMachine m vmID env hinv
  | stop env =>
    exact Stop_frame TypedInv env (fun s vmID hs => TypedInv_StopMachine s vmID env hs)
      (fun _ _ hs => hs) (fun _ _ hs => hs) m hinv

/-- In every state reached from a new manager by operations whose deploy requests carry a
workload type, every deployment recorded on a VM carries one: the hypothesis under which
`StopMachine` is shown not to panic holds on the states of the node. -/
theorem deployRequest_typed_of_reachable (config : NodeConfiguration) (publicKey : String)
    (m : MachineManager)
    (h : ReachableBy TypedDeploy (NewMachineManager config publicKey) m) (p : Nat) :
    ∀ dr, (m.vmAt p).deployRequest = some dr → dr.WorkloadType ≠ none := by
  apply TypedInv_vmAt
  induction h with
  | init => intro vm hvm; simp [NewMachineManager] at hvm
  | next op _ ha ih => exact TypedInv_step _ op ha ih

/-! ## The control listener: issuers and the trigger gate -/

/-- C11. With an empty list of valid issuers `validateIssuer` accepts every issuer; with a
list that is not empty it accepts exactly the issuers that are elements of the list, by
equality of strings. -/
theorem validateIssuer_spec (issuer : String) (validIssuers : List String) :
    validateIssuer issuer [] = true ∧
    (validIssuers ≠ [] → (validateIssuer issuer validIssuers = true ↔ issuer ∈ validIssuers)) := by
  constructor
  · rfl
  · intro hne
    have hlen : validIssuers.length ≠ 0 := fun h => hne (List.length_eq_zero.1 h)
    simp [validateIssuer, hlen]

/-- C11, at the list of the one issuer "X": "X" is accepted, and "x", which differs from it in
case, is not. -/
theorem validateIssuer_spec_witness :
    validateIssuer "X" ["X"] = true ∧ validateIssuer "x" ["X"] = false :=
  ⟨((validateIssuer_spec "X" ["X"]).2 (by decide)).2 (by decide),
    by
      have h := (validateIssuer_spec "x" ["X"]).2 (by decide)
      cases hv : validateIssuer "x" ["X"] with
      | false => rfl
      | true => exact absurd (h.1 hv) (by decide)⟩

/-- C12. A deploy request with trigger subjects, whose workload type the node accepts and
which is neither "v8" nor "wasm" without regard to case, is answered by one error envelope
and nothing else happens: whatever the claim validation, the object stores, the pool and the
agent would answer, the handler returns with the manager as it was. -/
theorem handleDeploy_trigger_gate (api : ApiListener) (m : Msg controlapi.DeployRequest)
    (request : controlapi.DeployRequest) (ns wt : String)
    (hsubject : extractNamespace m.Subject = (ns, none))
    (hdata : m.Data = Except.ok request)
    (htype : request.WorkloadType = some wt)
    (haccepted : wt ∈ api.config.WorkloadTypes)
    (htriggers : request.TriggerSubjects ≠ [])
    (hv8 : EqualFold wt "v8" = false) (hwasm : EqualFold wt "wasm" = false) :
    ∀ env : DeployHandlerEnv,
      handleDeploy api env m =
        ⟨api.mgr,
          [⟨ResponseType.RunResponseType, EnvelopeData.empty,
            some ("Unsupported workload type for trigger subject registration: " ++ wt)⟩],
          HandlerStatus.returned⟩ := by
  intro env
  have hlen : request.TriggerSubjects.length > 0 := by
    cases hts : request.TriggerSubjects with
    | nil => exact absurd hts htriggers
    | cons a rest => simp
  have hcont : api.config.WorkloadTypes.contains wt = true := by
    simpa using haccepted
  simp only [handleDeploy, hsubject, hdata, htype, hcont, hv8, hwasm, hlen]
  simp [respondFail]

/-- C12, at a deploy of type "native" with the trigger subject "a.b" on a node that accepts
"native": the reply is the error envelope, and the VM "vm1" is still in the pool. -/
theorem handleDeploy_trigger_gate_witness :
    (handleDeploy ⟨warmExample, warmExample.config⟩
        ⟨fun r => Except.ok r.DecodedClaims, exampleCache,
          exampleDeploy (AgentReply.reply ⟨true, none⟩)⟩
        ⟨"$NEX.DEPLOY.ns1.NODE",
          Except.ok { exampleRequest with TriggerSubjects := ["a.b"] }⟩) =
      ⟨warmExample,
        [⟨ResponseType.RunResponseType, EnvelopeData.empty,
          some "Unsupported workload type for trigger subject registration: native"⟩],
        HandlerStatus.returned⟩ ∧ warmExample.warmVMs = [0] :=
  ⟨handleDeploy_trigger_gate ⟨warmExample, warmExample.config⟩
      ⟨"$NEX.DEPLOY.ns1.NODE", Except.ok { exampleRequest with TriggerSubjects := ["a.b"] }⟩
      { exampleRequest with TriggerSubjects := ["a.b"] } "ns1" "native"
      (by decide) rfl rfl (by decide) (by decide) (by decide) (by decide) _,
    by decide⟩

/-! ## The payload cache: bucket and key -/

theorem head?_dropWhile_ne (c : Char) (l : List Char) :
    (l.dropWhile (fun x => x == c)).head? ≠ some c := by
  have h := List.head?_dropWhile_not (fun x => x == c) l
  intro hc
  rw [hc] at h
  simp at h

theorem takeWhile_eq_replicate (c : Char) (l : List Char) :
    l.takeWhile (fun x => x == c) = List.replicate (l.takeWhile (fun x => x == c)).length c := by
  apply List.eq_replicate_of_mem
  intro b hb
  simpa using List.mem_takeWhile_imp hb

/-- What `strings.Trim(s, "/")` does, read on lists of characters: the string is some slashes,
the result, and some slashes, and the result neither begins nor ends with a slash. -/
theorem trim_decomposes (c : Char) (l : List Char) :
    ∃ a b : Nat,
      l = List.replicate a c ++
          ((l.dropWhile (fun x => x == c)).reverse.dropWhile (fun x => x == c)).reverse ++
          List.replicate b c ∧
      ((l.dropWhile (fun x => x == c)).reverse.dropWhile (fun x => x == c)).reverse.head? ≠
        some c ∧
      ((l.dropWhile (fun x => x == c)).reverse.dropWhile (fun x => x == c)).reverse.getLast? ≠
        some c := by
  have h1 := List.takeWhile_append_dropWhile (fun x => x == c) l
  have h2 := List.takeWhile_append_dropWhile (fun x => x == c)
    (l.dropWhile (fun x => x == c)).reverse
  have hD : l.dropWhile (fun x => x == c) =
      ((l.dropWhile (fun x => x == c)).reverse.dropWhile (fun x => x == c)).reverse ++
        ((l.dropWhile (fun x => x == c)).reverse.takeWhile (fun x => x == c)).reverse := by
    rw [← List.reverse_append, h2, List.reverse_reverse]
  refine ⟨(l.takeWhile (fun x => x == c)).length,
    ((l.dropWhile (fun x => x == c)).reverse.takeWhile (fun x => x == c)).length, ?_, ?_, ?_⟩
  · have hB : ((l.dropWhile (fun x => x == c)).reverse.takeWhile (fun x => x == c)).reverse =
        List.replicate
          ((l.dropWhile (fun x => x == c)).reverse.takeWhile (fun x => x == c)).length c := by
      rw [takeWhile_eq_replicate c (l.dropWhile (fun x => x == c)).reverse]
      simp
    rw [← takeWhile_eq_replicate, ← hB, List.append_assoc, ← hD, h1]
  · intro hh
    apply head?_dropWhile_ne c l
    rw [hD, List.head?_append, hh]
    rfl
  · rw [List.getLast?_reverse]
    exact head?_dropWhile_ne c _

/-- C13, refuted: for the path "/a/b/" the source store is asked for the key "a/b", and for
the path "//a" for the key "a"; the claim gives "a/b/" and "/a". -/
theorem CacheWorkload_key_trims_both_ends :
    (CacheWorkload warmExample { exampleRequest with Location := ⟨"BUCKET", "/a/b/"⟩ }
        echoStore).2 = CacheResult.err "BUCKET:a/b" ∧
    (CacheWorkload warmExample { exampleRequest with Location := ⟨"BUCKET", "//a"⟩ }
        echoStore).2 = CacheResult.err "BUCKET:a" ∧
    Trim "/a/b/" '/' ≠ "a/b/" ∧ Trim "//a" '/' ≠ "/a" := by
  refine ⟨by decide, by decide, by decide, by decide⟩

/-- C13, amended. `CacheWorkload` asks the source store only for the bucket that is the host
of the URL and the key that is `strings.Trim(path, "/")`: stores that agree there give the
same result. That key is the path without its leading and without its trailing slashes:
the path is some slashes, the key, and some slashes, and the key neither begins nor ends
with a slash. -/
theorem CacheWorkload_bucket_and_key (m : MachineManager) (request : controlapi.DeployRequest)
    (env env1 : CacheEnv)
    (hfetch : env1.fetch request.JsDomain request.Location.Host
        (Trim request.Location.Path '/') =
      env.fetch request.JsDomain request.Location.Host (Trim request.Location.Path '/'))
    (hjs : env1.jsInternalErr = env.jsInternalErr) (hcache : env1.cacheErr = env.cacheErr)
    (hput : env1.putBytes = env.putBytes) (hsha : env1.sha256hex = env.sha256hex) :
    CacheWorkload m request env1 = CacheWorkload m request env ∧
    ∃ a b : Nat,
      request.Location.Path.data =
        List.replicate a '/' ++ (Trim request.Location.Path '/').data ++ List.replicate b '/' ∧
      (Trim request.Location.Path '/').data.head? ≠ some '/' ∧
      (Trim request.Location.Path '/').data.getLast? ≠ some '/' := by
  constructor
  · simp only [CacheWorkload, hfetch, hjs, hcache, hput, hsha]
  · exact trim_decomposes '/' request.Location.Path.data

/-- C13 amended, at the path "/a/b/": a store that holds the artifact under the key "a/b"
alone serves the request as well as one that holds it under every key. -/
theorem CacheWorkload_bucket_and_key_witness :
    CacheWorkload warmExample { exampleRequest with Location := ⟨"BUCKET", "/a/b/"⟩ }
        { exampleCache with
          fetch := fun _ bucket key =>
            if bucket = "BUCKET" ∧ key = "a/b" then Except.ok [1, 2, 3]
            else Except.error "not found" } =
      CacheWorkload warmExample { exampleRequest with Location := ⟨"BUCKET", "/a/b/"⟩ }
        exampleCache :=
  (CacheWorkload_bucket_and_key warmExample
    { exampleRequest with Location := ⟨"BUCKET", "/a/b/"⟩ } exampleCache
    { exampleCache with
      fetch := fun _ bucket key =>
        if bucket = "BUCKET" ∧ key = "a/b" then Except.ok [1, 2, 3]
        else Except.error "not found" }
    rfl rfl rfl rfl rfl).1

/-! ## The optional message of the agent -/

/-- C18, the code at a reply of the agent with `accepted = false` and no message, for the
deploy on "vm1": the VM is stopped and removed from `allVMs`, and then `DeployWorkload`
dereferences the absent message and panics; it returns no error value. With a message it
returns the error. -/
theorem DeployWorkload_reject_without_message_panics :
    (DeployWorkload (receiveWarm warmExample).1 0 exampleAgentRequest
        (exampleDeploy (AgentReply.reply ⟨false, none⟩))).2 = Outcome.panicked ∧
    mapGet (DeployWorkload (receiveWarm warmExample).1 0 exampleAgentRequest
        (exampleDeploy (AgentReply.reply ⟨false, none⟩))).1.allVMs "vm1" = none ∧
    ((DeployWorkload (receiveWarm warmExample).1 0 exampleAgentRequest
        (exampleDeploy (AgentReply.reply ⟨false, none⟩))).1.vmAt 0).shutdownCalled = true ∧
    (handleDeploy ⟨warmExample, ⟨1, ["native", "v8"], []⟩⟩
        ⟨fun r => Except.ok r.DecodedClaims, exampleCache,
          exampleDeploy (AgentReply.reply ⟨false, none⟩)⟩
        ⟨"$NEX.DEPLOY.ns1.NODE", Except.ok exampleRequest⟩).status =
      HandlerStatus.panicked ∧
    (DeployWorkload (receiveWarm warmExample).1 0 exampleAgentRequest
        (exampleDeploy (AgentReply.reply ⟨false, some "no"⟩))).2 =
      Outcome.err "workload rejected by agent: no" := by
  refine ⟨by decide, by decide, by decide, by decide, by decide⟩

/-! ## A namespace implies a deploy request -/

theorem NamespaceInv_vmAt (m : MachineManager) (h : NamespaceInv m) (p : Nat)
    (hns : (m.vmAt p).namespace_ ≠ "") : (m.vmAt p).deployRequest ≠ none := by
  rcases vmAt_mem_or_default m p with hmem | hdef
  · exact h _ hmem hns
  · rw [hdef] at hns
    exact absurd rfl hns

theorem NamespaceInv_StopMachine (m : MachineManager) (vmID : String) (env : StopEnv)
    (hinv : NamespaceInv m) : NamespaceInv (StopMachine m vmID env).1 := by
  cases h : mapGet m.allVMs vmID with
  | none => rw [StopMachine_absent m vmID env h]; exact hinv
  | some p =>
    intro vm hvm hns
    rw [(StopMachine_present m vmID env p h).2.2.1] at hvm
    rcases List.mem_or_eq_of_mem_set hvm with hold | hnew
    · exact hinv vm hold hns
    · rw [hnew] at hns ⊢
      exact NamespaceInv_vmAt m hinv p hns

theorem NamespaceInv_step (m : MachineManager) (op : Op) (hinv : NamespaceInv m) :
    NamespaceInv (step m op) := by
  cases op with
  | warm launch =>
    simp only [step, warmStep]
    split
    · exact hinv
    · split
      · exact hinv
      · cases launch with
        | error e => exact hinv
        | ok l =>
          intro vm hvm hns
          simp only [MachineManager.add, List.mem_append, List.mem_singleton] at hvm
          rcases hvm with hold | hnew
          · exact hinv vm hold hns
          · rw [hnew] at hns
            exact absurd rfl hns
  | deploy request env =>
    simp only [step]
    have hr := (receiveWarm_fields m).2.2.1
    split
    · rename_i m1 p heq
      rw [heq] at hr
      replace hr : m1.heap = m.heap := hr
      exact DeployWorkload_frame NamespaceInv NamespaceInv m1 p request env
        (fun vm1 _ _ hreq hs => by
          intro vm hvm hns
          rcases List.mem_or_eq_of_mem_set hvm with hold | hnew
          · exact hs vm hold hns
          · rw [hnew, hreq]
            simp)
        (fun _ _ hs => hs) (fun _ _ hs => hs)
        (fun s hs => NamespaceInv_StopMachine s _ _ hs) (fun _ hs => hs)
        (fun _ _ _ _ _ hs => hs)
        (by intro vm hvm; rw [hr] at hvm; exact hinv vm hvm)
    · rename_i m1 r _ heq
      rw [heq] at hr
      replace hr : m1.heap = m.heap := hr
      intro vm hvm
      rw [hr] at hvm
      exact hinv vm hvm
  | stopMachine vmID env => exact NamespaceInv_StopMachine m vmID env hinv
  | stop env =>
    exact Stop_frame NamespaceInv env (fun s vmID hs => NamespaceInv_StopMachine s vmID env hs)
      (fun _ _ hs => hs) (fun _ _ hs => hs) m hinv

theorem NamespaceInv_of_reachable (m : MachineManager) (h : Reachable m) : NamespaceInv m := by
  obtain ⟨config, publicKey, hr⟩ := h
  induction hr with
  | init => intro vm hvm; simp [NewMachineManager] at hvm
  | next op _ _ ih => exact NamespaceInv_step _ op ih

/-- C19. In every reachable state of the manager, a VM record with a non-empty namespace
carries a deploy request. So a stop request whose subject has a non-empty namespace token
finds, for any VM that passes the lookup and the comparison of namespaces, a deploy request
to read: `handleStop` does not dereference nil at the claim validation or in its reply, and
if it panics at all, the panic is inside `StopMachine`. -/
theorem handleStop_reads_present_deployRequest (api : ApiListener) (hreach : Reachable api.mgr)
    (validate : controlapi.StopRequest → GenericClaims → Option String) (env : StopEnv)
    (m : Msg controlapi.StopRequest) (request : controlapi.StopRequest) (ns : String) (p : Nat)
    (hsubject : extractNamespace m.Subject = (ns, none)) (hnonempty : ns ≠ "")
    (hdata : m.Data = Except.ok request)
    (hvm : LookupMachine api.mgr request.WorkloadId = some p)
    (hns : (api.mgr.vmAt p).namespace_ = ns) :
    (∃ dr, (api.mgr.vmAt p).deployRequest = some dr) ∧
    (∀ q, (api.mgr.vmAt q).namespace_ ≠ "" → (api.mgr.vmAt q).deployRequest ≠ none) ∧
    ((handleStop api validate env m).status = HandlerStatus.panicked →
      (StopMachine api.mgr request.WorkloadId env).2 = Outcome.panicked) := by
  have hinv := NamespaceInv_of_reachable api.mgr hreach
  have hsome : (api.mgr.vmAt p).deployRequest ≠ none :=
    NamespaceInv_vmAt api.mgr hinv p (by rw [hns]; exact hnonempty)
  obtain ⟨dr, hdr⟩ := Option.ne_none_iff_exists'.1 hsome
  refine ⟨⟨dr, hdr⟩, fun q hq => NamespaceInv_vmAt api.mgr hinv q hq, ?_⟩
  simp only [handleStop, hsubject, hdata, hvm, hns, ne_eq, not_true_eq_false, if_false, hdr]
  cases validate request dr.DecodedClaims with
  | some e => simp
  | none =>
    simp only
    cases hst : StopMachine api.mgr request.WorkloadId env with
    | mk m1 out =>
      cases out <;> simp

theorem liveDeployExample_reachable : Reachable liveDeployExample :=
  ⟨⟨1, ["native", "v8"], ["X"]⟩, "NODE",
    ReachableBy.next
      (Op.deploy triggerRequest (exampleDeploy (AgentReply.reply ⟨true, none⟩)))
      (ReachableBy.next (Op.warm (Except.ok ⟨"vm1", 1, 256, 0⟩)) ReachableBy.init rfl)
      trivial⟩

/-- C19, at the node on which "vm1" runs a workload of namespace "ns1", for a stop sent on
"$NEX.STOP.ns1.NODE": the record of "vm1" carries its deploy request. -/
theorem handleStop_reads_present_deployRequest_witness :
    ∃ dr, (liveDeployExample.vmAt 0).deployRequest = some dr :=
  (handleStop_reads_present_deployRequest ⟨liveDeployExample, liveDeployExample.config⟩
    liveDeployExample_reachable
    (fun _ _ => none) quietStop ⟨"$NEX.STOP.ns1.NODE", Except.ok ⟨"vm1", "jwt"⟩⟩
    ⟨"vm1", "jwt"⟩ "ns1" 0 (by decide) (by decide) rfl
    (show LookupMachine liveDeployExample "vm1" = some 0 from by decide)
    (show (liveDeployExample.vmAt 0).namespace_ = "ns1" from by decide)).1

/-! ## Uptime -/

theorem myUptime_eq (d : Int) (hd : 0 ≤ d) :
    myUptime d =
      renderFields (printedFields (d / Second / 60 / 60 / 24 / 365) (d / Second / 60 / 60 / 24 % 365)
        (d / Second / 60 / 60 % 24) (d / Second / 60 % 60) (d / Second % 60)) := by
  have hS : (0 : Int) ≤ Second := by decide
  have h0 : 0 ≤ d / Second := Int.ediv_nonneg hd hS
  have h1 : 0 ≤ d / Second / 60 := Int.ediv_nonneg h0 (by decide)
  have h2 : 0 ≤ d / Second / 60 / 60 := Int.ediv_nonneg h1 (by decide)
  have h3 : 0 ≤ d / Second / 60 / 60 / 24 := Int.ediv_nonneg h2 (by decide)
  have e0 : Int.tdiv d Second = d / Second := Int.tdiv_eq_ediv hd hS
  have e1 : Int.tdiv (d / Second) 60 = d / Second / 60 := Int.tdiv_eq_ediv h0 (by decide)
  have e2 : Int.tdiv (d / Second / 60) 60 = d / Second / 60 / 60 := Int.tdiv_eq_ediv h1 (by decide)
  have e3 : Int.tdiv (d / Second / 60 / 60) 24 = d / Second / 60 / 60 / 24 :=
    Int.tdiv_eq_ediv h2 (by decide)
  have e4 : Int.tdiv (d / Second / 60 / 60 / 24) 365 = d / Second / 60 / 60 / 24 / 365 :=
    Int.tdiv_eq_ediv h3 (by decide)
  have r0 : Int.tmod (d / Second) 60 = d / Second % 60 := Int.tmod_eq_emod h0 (by decide)
  have r1 : Int.tmod (d / Second / 60) 60 = d / Second / 60 % 60 := Int.tmod_eq_emod h1 (by decide)
  have r2 : Int.tmod (d / Second / 60 / 60) 24 = d / Second / 60 / 60 % 24 :=
    Int.tmod_eq_emod h2 (by decide)
  have r3 : Int.tmod (d / Second / 60 / 60 / 24) 365 = d / Second / 60 / 60 / 24 % 365 :=
    Int.tmod_eq_emod h3 (by decide)
  simp only [myUptime, e0, e1, e2, e3, e4, r0, r1, r2, r3]
  generalize d / Second = s at *
  have sy : String.singleton 'y' = "y" := rfl
  have sd : String.singleton 'd' = "d" := rfl
  have sh : String.singleton 'h' = "h" := rfl
  have sm : String.singleton 'm' = "m" := rfl
  have ss : String.singleton 's' = "s" := rfl
  by_cases hy : s / 60 / 60 / 24 / 365 > 0
  · have b0 : (s / 60 / 60 / 24 / 365 == 0) = false := by
      simp only [beq_eq_false_iff_ne, ne_eq]; omega
    simp only [hy, if_true, printedFields, List.dropWhile_cons, b0, renderFields,
      List.cons_append, List.nil_append, String.append_assoc, sy, sd, sh, sm, ss,
      String.append_empty]
  · have b0 : (s / 60 / 60 / 24 / 365 == 0) = true := by
      simp only [beq_iff_eq]; omega
    by_cases hdd : s / 60 / 60 / 24 > 0
    · have b1 : (s / 60 / 60 / 24 % 365 == 0) = false := by
        simp only [beq_eq_false_iff_ne, ne_eq]; omega
      have e : s / 60 / 60 / 24 % 365 = s / 60 / 60 / 24 := by omega
      simp only [hy, hdd, if_true, if_false, printedFields, List.dropWhile_cons, b0, b1,
        renderFields, List.cons_append, List.nil_append, String.append_assoc, sy, sd, sh, sm,
        ss, String.append_empty]
      rw [e]
    · have b1 : (s / 60 / 60 / 24 % 365 == 0) = true := by
        simp only [beq_iff_eq]; omega
      by_cases hh : s / 60 / 60 > 0
      · have b2 : (s / 60 / 60 % 24 == 0) = false := by
          simp only [beq_eq_false_iff_ne, ne_eq]; omega
        have e : s / 60 / 60 % 24 = s / 60 / 60 := by omega
        simp only [hy, hdd, hh, if_true, if_false, printedFields, List.dropWhile_cons, b0, b1,
          b2, renderFields, List.cons_append, List.nil_append, String.append_assoc, sy, sd, sh,
          sm, ss, String.append_empty]
        rw [e]
      · have b2 : (s / 60 / 60 % 24 == 0) = true := by
          simp only [beq_iff_eq]; omega
        by_cases hm : s / 60 > 0
        · have b3 : (s / 60 % 60 == 0) = false := by
            simp only [beq_eq_false_iff_ne, ne_eq]; omega
          have e : s / 60 % 60 = s / 60 := by omega
          simp only [hy, hdd, hh, hm, if_true, if_false, printedFields, List.dropWhile_cons,
            b0, b1, b2, b3, renderFields, List.cons_append, List.nil_append,
            String.append_assoc, sy, sd, sh, sm, ss, String.append_empty]
          rw [e]
        · have b3 : (s / 60 % 60 == 0) = true := by
            simp only [beq_iff_eq]; omega
          have e : s % 60 = s := by omega
          simp only [hy, hdd, hh, hm, if_false, printedFields, List.dropWhile_cons,
            b0, b1, b2, b3, renderFields, List.cons_append, List.nil_append,
            String.append_assoc, sy, sd, sh, sm, ss, String.append_empty,
            List.dropWhile_nil, if_true]
          rw [e]

theorem printedFields_head (y dd h m sec : Int)
    (hne : ¬ (y = 0 ∧ dd = 0 ∧ h = 0 ∧ m = 0)) :
    ∃ v u rest, printedFields y dd h m sec = (v, u) :: rest ∧ v ≠ 0 ∧ u ≠ 's' := by
  by_cases hy : y = 0
  · by_cases hd : dd = 0
    · by_cases hh : h = 0
      · have hm : m ≠ 0 := fun e => hne ⟨hy, hd, hh, e⟩
        exact ⟨m, 'm', [(sec, 's')], by simp [printedFields, List.dropWhile_cons, hy, hd, hh, hm],
          hm, by decide⟩
      · exact ⟨h, 'h', [(m, 'm'), (sec, 's')],
          by simp [printedFields, List.dropWhile_cons, hy, hd, hh], hh, by decide⟩
    · exact ⟨dd, 'd', [(h, 'h'), (m, 'm'), (sec, 's')],
        by simp [printedFields, List.dropWhile_cons, hy, hd], hd, by decide⟩
  · exact ⟨y, 'y', [(dd, 'd'), (h, 'h'), (m, 'm'), (sec, 's')],
      by simp [printedFields, List.dropWhile_cons, hy], hy, by decide⟩

/-- C20. For a non-negative duration of `s` whole seconds, `myUptime` prints years, days below
365, hours below 24, minutes below 60 and seconds below 60 whose mixed-radix value is `s`,
leaving out the leading units of value zero: the text is `<s>s` when `s < 60`, and
otherwise its first unit is not zero. -/
theorem myUptime_mixed_radix (d : Int) (hd : 0 ≤ d) :
    ∃ y dd h m sec : Int,
      0 ≤ y ∧ 0 ≤ dd ∧ dd < 365 ∧ 0 ≤ h ∧ h < 24 ∧ 0 ≤ m ∧ m < 60 ∧ 0 ≤ sec ∧ sec < 60 ∧
      ((((y * 365 + dd) * 24 + h) * 60 + m) * 60 + sec) = d / Second ∧
      myUptime d = renderFields (printedFields y dd h m sec) ∧
      (d / Second < 60 → myUptime d = fmtInt (d / Second) ++ "s") ∧
      (60 ≤ d / Second →
        ∃ v u rest, printedFields y dd h m sec = (v, u) :: rest ∧ v ≠ 0 ∧ u ≠ 's') := by
  have h0 : 0 ≤ d / Second := Int.ediv_nonneg hd (by decide)
  have heq := myUptime_eq d hd
  generalize d / Second = s at *
  refine ⟨s / 60 / 60 / 24 / 365, s / 60 / 60 / 24 % 365, s / 60 / 60 % 24, s / 60 % 60,
    s % 60, by omega, by omega, by omega, by omega, by omega, by omega, by omega, by omega,
    by omega, by omega, heq, ?_, ?_⟩
  · intro hlt
    rw [heq]
    have e1 : s / 60 / 60 / 24 / 365 = 0 := by omega
    have e2 : s / 60 / 60 / 24 % 365 = 0 := by omega
    have e3 : s / 60 / 60 % 24 = 0 := by omega
    have e4 : s / 60 % 60 = 0 := by omega
    have e5 : s % 60 = s := by omega
    rw [e1, e2, e3, e4, e5]
    simp [printedFields, List.dropWhile_cons, renderFields]
    rfl
  · intro hge
    apply printedFields_head
    omega

/-- C20, at one year, one day, one hour, one minute and one second, and at ninety seconds. -/
theorem myUptime_mixed_radix_witness :
    myUptime 31626061000000000 = "1y1d1h1m1s" ∧ myUptime 90000000005 = "1m30s" ∧
    ∃ y dd h m sec : Int,
      0 ≤ y ∧ 0 ≤ dd ∧ dd < 365 ∧ 0 ≤ h ∧ h < 24 ∧ 0 ≤ m ∧ m < 60 ∧ 0 ≤ sec ∧ sec < 60 ∧
      ((((y * 365 + dd) * 24 + h) * 60 + m) * 60 + sec) = 31626061000000000 / Second ∧
      myUptime 31626061000000000 = renderFields (printedFields y dd h m sec) ∧
      (31626061000000000 / Second < 60 →
        myUptime 31626061000000000 = fmtInt (31626061000000000 / Second) ++ "s") ∧
      (60 ≤ 31626061000000000 / Second →
        ∃ v u rest, printedFields y dd h m sec = (v, u) :: rest ∧ v ≠ 0 ∧ u ≠ 's') :=
  ⟨by decide, by decide, myUptime_mixed_radix 31626061000000000 (by decide)⟩

/-! ## Machine summaries -/

/-- C17, refuted: on the node whose only VM is the warm VM "vm1", which has the empty
namespace and no deploy request, `summarizeMachines` for the empty namespace reads the
description of an absent deploy request and panics: it returns no summary for a VM whose
namespace is the one asked for. -/
theorem summarizeMachines_panics_on_warm_vm :
    warmExample.vms.map (fun kv => (kv.2.vmmID, kv.2.namespace_, kv.2.deployRequest)) =
      [("vm1", "", none)] ∧
    summarizeMachines warmExample.vms "" 100 = none := by
  refine ⟨by decide, by decide⟩

theorem summarizeMachines_cons_match (k : String) (v : runningFirecracker)
    (rest : List (String × runningFirecracker)) (ns : String) (now : Nat)
    (dr : agentapi.DeployRequest) (out : List controlapi.MachineSummary)
    (hns : v.namespace_ = ns) (hdr : v.deployRequest = some dr)
    (hout : summarizeMachines rest ns now = some out) :
    ∃ s, summarizeMachines ((k, v) :: rest) ns now = some (s :: out) ∧ Summarizes s v := by
  simp only [summarizeMachines, hns, if_true, hdr, hout]
  refine ⟨_, rfl, rfl, dr, hdr, rfl, ?_, ?_⟩
  · cases dr.Description <;> rfl
  · cases dr.WorkloadType <;> rfl

/-- C17, amended. For every VM map and namespace such that each VM of that namespace carries
a deploy request, `summarizeMachines` returns, in the order of the loop, exactly one summary
for each VM whose namespace is the given one and none for any other VM: the ids returned
are the ids of those VMs, and each summary carries the name, description and type of the
deploy request of its VM, the empty string standing for an absent description or type. -/
theorem summarizeMachines_isolation (vms : List (String × runningFirecracker)) (ns : String)
    (now : Nat)
    (hbound : ∀ kv ∈ vms, kv.2.namespace_ = ns → kv.2.deployRequest ≠ none) :
    ∃ out, summarizeMachines vms ns now = some out ∧
      List.Forall₂ Summarizes out
        ((vms.map Prod.snd).filter (fun v => decide (v.namespace_ = ns))) ∧
      out.map (fun s => s.Id) =
        ((vms.map Prod.snd).filter (fun v => decide (v.namespace_ = ns))).map
          (fun v => v.vmmID) := by
  induction vms with
  | nil => exact ⟨[], rfl, List.Forall₂.nil, rfl⟩
  | cons kv rest ih =>
    obtain ⟨k, v⟩ := kv
    obtain ⟨out, hout, hall, hids⟩ :=
      ih (fun kv hkv => hbound kv (List.mem_cons_of_mem _ hkv))
    by_cases hns : v.namespace_ = ns
    · have hsome := hbound (k, v) (List.mem_cons_self _ _) hns
      obtain ⟨dr, hdr⟩ := Option.ne_none_iff_exists'.1 hsome
      obtain ⟨s, hs, hsum⟩ := summarizeMachines_cons_match k v rest ns now dr out hns hdr hout
      refine ⟨s :: out, hs, ?_, ?_⟩
      · simp only [List.map_cons, List.filter_cons, hns, decide_True, if_true]
        exact List.Forall₂.cons hsum hall
      · simp only [List.map_cons, List.filter_cons, hns, decide_True, if_true, hids, hsum.1]
    · refine ⟨out, ?_, ?_, ?_⟩
      · simp only [summarizeMachines, hns, if_false, hout]
      · simpa only [List.map_cons, List.filter_cons, hns, decide_False] using hall
      · simpa only [List.map_cons, List.filter_cons, hns, decide_False] using hids

/-- In a reachable state, for a namespace that is not empty, every VM of that namespace
carries a deploy request, as the summaries of an info request need. -/
theorem vms_bound_of_reachable (m : MachineManager) (h : Reachable m) (ns : String)
    (hne : ns ≠ "") : ∀ kv ∈ m.vms, kv.2.namespace_ = ns → kv.2.deployRequest ≠ none := by
  intro kv hkv hns
  simp only [MachineManager.vms, List.mem_map] at hkv
  obtain ⟨kp, _, rfl⟩ := hkv
  exact NamespaceInv_vmAt m (NamespaceInv_of_reachable m h) kp.2 (by rw [hns]; exact hne)

/-- C17 amended, at the node on which "vm1" runs the workload "echo" of type "v8" in
namespace "ns1": one summary for "ns1", none for "ns2". -/
theorem summarizeMachines_isolation_witness :
    (summarizeMachines liveDeployExample.vms "ns1" 100).map
        (List.map (fun s => (s.Id, s.Workload.Name, s.Workload.Description,
          s.Workload.WorkloadType))) = some [("vm1", "echo", "", "v8")] ∧
    summarizeMachines liveDeployExample.vms "ns2" 100 = some [] ∧
    ∃ out, summarizeMachines liveDeployExample.vms "ns1" 100 = some out ∧
      List.Forall₂ Summarizes out
        ((liveDeployExample.vms.map Prod.snd).filter (fun v => decide (v.namespace_ = "ns1"))) ∧
      out.map (fun s => s.Id) =
        ((liveDeployExample.vms.map Prod.snd).filter
          (fun v => decide (v.namespace_ = "ns1"))).map (fun v => v.vmmID) :=
  ⟨by decide, by decide,
    summarizeMachines_isolation liveDeployExample.vms "ns1" 100
      (vms_bound_of_reachable liveDeployExample liveDeployExample_reachable "ns1"
        (by decide))⟩

/-! ## The gate of `Stop` -/

theorem StopMachine_gate_fields (m : MachineManager) (vmID : String) (env : StopEnv) :
    (StopMachine m vmID env).1.closing = m.closing ∧
    (StopMachine m vmID env).1.warmClosed = m.warmClosed := by
  cases h : mapGet m.allVMs vmID with
  | none => rw [StopMachine_absent m vmID env h]; exact ⟨rfl, rfl⟩
  | some p =>
    obtain ⟨_, _, _, _, hw, hc, _⟩ := StopMachine_present m vmID env p h
    exact ⟨hc, hw⟩

theorem stopAll_gate_fields (m : MachineManager) (env : StopEnv) (ids : List String) :
    (stopAll m env ids).1.closing = m.closing ∧
    (stopAll m env ids).1.warmClosed = m.warmClosed :=
  stopAll_frame (fun s => s.closing = m.closing ∧ s.warmClosed = m.warmClosed) env
    (fun s vmID hs => by
      obtain ⟨h1, h2⟩ := StopMachine_gate_fields s vmID env
      exact ⟨h1.trans hs.1, h2.trans hs.2⟩)
    ids m ⟨rfl, rfl⟩

theorem Stop_closing (m : MachineManager) (env : StopEnv) :
    (Stop m env).1.closing = (m.closing + 1) % 2 ^ 32 := by
  unfold Stop
  simp only
  split
  · split
    · rfl
    · exact (stopAll_gate_fields _ env _).1
  · rfl

theorem Stop_gate_shut (m : MachineManager) (env : StopEnv)
    (h : (m.closing + 1) % 2 ^ 32 ≠ 1) :
    Stop m env = ({ m with closing := (m.closing + 1) % 2 ^ 32 }, Outcome.nil) := by
  unfold Stop
  simp only [h, if_false]

theorem Stop_gate_open (m : MachineManager) (env : StopEnv)
    (h : (m.closing + 1) % 2 ^ 32 = 1) :
    (Stop m env).1.warmClosed = true ∧
    (m.warmClosed = true → (Stop m env).2 = Outcome.panicked) ∧
    (m.warmClosed = false →
      Stop m env =
        stopAll { m with closing := 1, warmClosed := true } env (m.allVMs.map Prod.fst)) := by
  unfold Stop
  simp only [h, if_true]
  cases hw : m.warmClosed with
  | true => simp [hw]
  | false =>
    simp only [Bool.false_eq_true, if_false]
    exact ⟨(stopAll_gate_fields _ env _).2, by simp, fun _ => trivial⟩

theorem stopTimes_eq (m : MachineManager) (env : StopEnv) (hclosing : m.closing = 0)
    (k : Nat) (hk : k < 2 ^ 32) :
    stopTimes m env (k + 1) = { (Stop m env).1 with closing := (k + 1) % 2 ^ 32 } := by
  induction k with
  | zero =>
    have h1 := Stop_closing m env
    rw [hclosing] at h1
    show (Stop m env).1 = _
    cases hs : (Stop m env).1
    rw [hs] at h1
    simp only at h1
    simp [h1]
  | succ k ih =>
    have ih1 := ih (by omega)
    show (Stop (stopTimes m env (k + 1)) env).1 = _
    rw [ih1, Stop_gate_shut]
    · simp only [Nat.mod_eq_of_lt (show k + 1 < 2 ^ 32 by omega)]
    · simp only [Nat.mod_eq_of_lt (show k + 1 < 2 ^ 32 by omega)]
      omega


/-- C15, refuted: on a new manager, after 2^32 calls of `Stop` the counter `closing` is back
at 0, and call number 2^32 + 1 finds it at 1 again: it passes the gate, enters the stop-all
body a second time and panics closing the closed channel. -/
theorem Stop_gate_reopens_after_wraparound :
    (stopTimes (NewMachineManager ⟨1, ["native", "v8"], ["X"]⟩ "NODE") quietStop
      (2 ^ 32)).closing = 0 ∧
    (Stop (stopTimes (NewMachineManager ⟨1, ["native", "v8"], ["X"]⟩ "NODE") quietStop
      (2 ^ 32)) quietStop).2 = Outcome.panicked := by
  have hst := stopTimes_eq (NewMachineManager ⟨1, ["native", "v8"], ["X"]⟩ "NODE") quietStop
    rfl (2 ^ 32 - 1) (by omega)
  have e : 2 ^ 32 - 1 + 1 = 2 ^ 32 := by omega
  rw [e] at hst
  have hopen := Stop_gate_open (NewMachineManager ⟨1, ["native", "v8"], ["X"]⟩ "NODE")
    quietStop rfl
  constructor
  · rw [hst]
    simp
  · apply (Stop_gate_open _ quietStop ?_).2.1
    · rw [hst]
      exact hopen.1
    · rw [hst]
      simp

/-- C15, amended. From a manager whose counter `closing` is 0, in a sequence of `k` calls of
`Stop` with `1 ≤ k ≤ 2^32` the stop-all body (close the pool channel, stop every VM) runs
on the first call only: the state after the `k` calls is the state after the first with the
counter at `k` modulo 2^32, and each later call returns nil and changes the counter
alone. -/
theorem Stop_single_entry (m : MachineManager) (env : StopEnv) (hclosing : m.closing = 0)
    (k : Nat) (hk1 : 1 ≤ k) (hk : k ≤ 2 ^ 32) :
    stopTimes m env k = { (Stop m env).1 with closing := k % 2 ^ 32 } ∧
    (m.warmClosed = false →
      Stop m env =
        stopAll { m with closing := 1, warmClosed := true } env (m.allVMs.map Prod.fst)) ∧
    (k < 2 ^ 32 →
      Stop (stopTimes m env k) env =
        ({ stopTimes m env k with closing := (k + 1) % 2 ^ 32 }, Outcome.nil)) := by
  obtain ⟨j, rfl⟩ : ∃ j, k = j + 1 := ⟨k - 1, by omega⟩
  have hst := stopTimes_eq m env hclosing j (by omega)
  refine ⟨hst, (Stop_gate_open m env (by rw [hclosing]; decide)).2.2, ?_⟩
  intro hlt
  have hc : (stopTimes m env (j + 1)).closing = j + 1 := by
    rw [hst]
    exact Nat.mod_eq_of_lt hlt
  rw [Stop_gate_shut _ env (by rw [hc]; omega), hc]

/-- C15 amended, at three calls of `Stop` on the node with the warm VM "vm1": the state is
that after the first call, with the counter at 3. -/
theorem Stop_single_entry_witness :
    stopTimes warmExample quietStop 3 =
      { (Stop warmExample quietStop).1 with closing := 3 % 2 ^ 32 } :=
  (Stop_single_entry warmExample quietStop (by decide) 3 (by decide) (by decide)).1

/-! ## The VM counter -/

theorem counterValue_append (t u : List Measurement) (c : Counter) (a : AttrSet) :
    counterValue (t ++ u) c a = counterValue t c a + counterValue u c a := by
  induction t with
  | nil => simp [counterValue]
  | cons y rest ih =>
    rw [List.cons_append, counterValue, counterValue, ih]
    omega

theorem counterValue_add_other (m : MachineManager) (c : Counter) (v : Int) (a : AttrSet)
    (hc : c ≠ Counter.vmCounter) :
    counterValue (m.add c v a).t Counter.vmCounter AttrSet.none =
      counterValue m.t Counter.vmCounter AttrSet.none := by
  simp [MachineManager.add, counterValue_append, counterValue, hc]

theorem length_mapDelete {α : Type} (m : List (String × α)) (k : String) (v : α)
    (hnd : (m.map Prod.fst).Nodup) (h : mapGet m k = some v) :
    (mapDelete m k).length + 1 = m.length := by
  induction m with
  | nil => simp [mapGet] at h
  | cons kv rest ih =>
    obtain ⟨k1, v1⟩ := kv
    simp only [List.map_cons, List.nodup_cons] at hnd
    rw [mapDelete_cons]
    by_cases hk : k1 = k
    · rw [if_pos hk]
      have hnone : mapGet rest k = none := by
        cases hg : mapGet rest k with
        | none => rfl
        | some w =>
          exfalso
          apply hnd.1
          rw [hk]
          exact List.mem_map.2 ⟨(k, w), mem_of_mapGet _ _ _ hg, rfl⟩
      rw [mapDelete_of_none _ _ hnone]
      simp
    · rw [if_neg hk]
      simp only [mapGet, if_neg hk] at h
      simp only [List.length_cons]
      have := ih hnd.2 h
      omega

theorem StopMachine_vmCounter (m : MachineManager) (vmID : String) (env : StopEnv) (p : Nat)
    (h : mapGet m.allVMs vmID = some p)
    (htype : ∀ dr, (m.vmAt p).deployRequest = some dr → dr.WorkloadType ≠ none) :
    counterValue (StopMachine m vmID env).1.t Counter.vmCounter AttrSet.none =
      counterValue m.t Counter.vmCounter AttrSet.none - 1 := by
  simp only [StopMachine, h]
  have hp := fun m0 vm0 => (publishMachineStopped_fields m0 vm0 env).2.2.2.2.2.2.2
  cases hd : (m.vmAt p).deployRequest with
  | none =>
    simp [MachineManager.add, MachineManager.setVM, counterValue_append, counterValue, hp,
      AttrSet.none, AttrSet.withNamespace]
    omega
  | some dr =>
    cases hw : dr.WorkloadType with
    | none => exact absurd hw (htype dr hd)
    | some wt =>
      simp [MachineManager.add, MachineManager.setVM, counterValue_append, counterValue, hp,
        AttrSet.none, AttrSet.withNamespace, hw]
      omega


theorem VmCountInv_StopMachine (m : MachineManager) (vmID : String) (env : StopEnv)
    (hinv : VmCountInv m) : VmCountInv (StopMachine m vmID env).1 := by
  cases h : mapGet m.allVMs vmID with
  | none => rw [StopMachine_absent m vmID env h]; exact hinv
  | some p =>
    obtain ⟨hnd, htyped, hcount⟩ := hinv
    refine ⟨?_, TypedInv_StopMachine m vmID env htyped, ?_⟩
    · rw [(StopMachine_present m vmID env p h).1]
      exact hnd.sublist ((mapDelete_sublist _ _).map _)
    · rw [StopMachine_vmCounter m vmID env p h (TypedInv_vmAt m htyped p),
        (StopMachine_present m vmID env p h).1, hcount]
      have := length_mapDelete m.allVMs vmID p hnd h
      omega

theorem TypedInv_setVM (m : MachineManager) (p : Nat) (vm1 : runningFirecracker)
    (request : agentapi.DeployRequest) (hreq : vm1.deployRequest = some request)
    (ht : request.WorkloadType ≠ none) (hinv : TypedInv m) : TypedInv (m.setVM p vm1) := by
  intro vm hvm dr hdr
  rcases List.mem_or_eq_of_mem_set hvm with hold | hnew
  · exact hinv vm hold dr hdr
  · rw [hnew, hreq] at hdr
    cases hdr
    exact ht

theorem receiveWarm_state (m : MachineManager) :
    (receiveWarm m).1 = m ∨ ∃ rest, (receiveWarm m).1 = { m with warmVMs := rest } := by
  unfold receiveWarm
  cases m.warmVMs with
  | nil => cases m.warmClosed <;> exact Or.inl rfl
  | cons p rest => exact Or.inr ⟨rest, rfl⟩

theorem VmCountInv_step (m : MachineManager) (op : Op) (hfresh : FreshLaunch m op)
    (htyped : TypedDeploy m op) (hinv : VmCountInv m) : VmCountInv (step m op) := by
  cases op with
  | warm launch =>
    simp only [step, warmStep]
    split
    · exact hinv
    · split
      · exact hinv
      · cases launch with
        | error e => exact hinv
        | ok l =>
          have hnone : mapGet m.allVMs l.vmmID = none := hfresh
          obtain ⟨hnd, htyp, hcount⟩ := hinv
          refine ⟨?_, ?_, ?_⟩
          · simp only [MachineManager.add, mapSet, mapDelete_of_none _ _ hnone, List.map_cons,
              List.nodup_cons]
            refine ⟨?_, hnd⟩
            intro hin
            obtain ⟨kp, hkp, hfst⟩ := List.mem_map.1 hin
            have hg := mapGet_of_mem m.allVMs kp.1 kp.2 hnd hkp
            rw [hfst, hnone] at hg
            cases hg
          · intro vm hvm dr hdr
            simp only [MachineManager.add, List.mem_append, List.mem_singleton] at hvm
            rcases hvm with hold | hnew
            · exact htyp vm hold dr hdr
            · rw [hnew] at hdr
              cases hdr
          · simp only [MachineManager.add, mapSet, mapDelete_of_none _ _ hnone,
              counterValue_append, counterValue, List.length_cons, hcount]
            simp [AttrSet.none]
  | deploy request env =>
    simp only [step]
    have ht : request.WorkloadType ≠ none := htyped
    have hr : VmCountInv (receiveWarm m).1 := by
      rcases receiveWarm_state m with h | ⟨rest, h⟩ <;> rw [h] <;> exact hinv
    split
    · rename_i m1 p heq
      rw [heq] at hr
      exact DeployWorkload_frame VmCountInv VmCountInv m1 p request env
        (fun vm1 _ _ hreq hs => ⟨hs.1, TypedInv_setVM m1 p vm1 request hreq ht hs.2.1, hs.2.2⟩)
        (fun _ _ hs => hs) (fun _ _ hs => hs)
        (fun s hs => VmCountInv_StopMachine s _ _ hs) (fun _ hs => hs)
        (fun s c v a hc hs => ⟨hs.1, hs.2.1, by
          rw [counterValue_add_other s c v a hc]
          exact hs.2.2⟩) hr
    · rename_i m1 r _ heq
      rw [heq] at hr
      exact hr
  | stopMachine vmID env => exact VmCountInv_StopMachine m vmID env hinv
  | stop env =>
    exact Stop_frame VmCountInv env (fun s vmID hs => VmCountInv_StopMachine s vmID env hs)
      (fun _ _ hs => hs) (fun _ _ hs => hs) m hinv

/-- C16. In every state reachable from a new manager by registrations of the warming loop and
calls of `StopMachine` (and also by deploys and `Stop`), the value of `vmCounter`, the sum
of the +1 of the registrations and the -1 of the stops, is the number of entries of
`allVMs`. -/
theorem vmCounter_tracks_allVMs (m : MachineManager) (h : ReachableTyped m) :
    counterValue m.t Counter.vmCounter AttrSet.none = (m.allVMs.length : Int) := by
  obtain ⟨config, publicKey, hr⟩ := h
  have hinv : VmCountInv m := by
    induction hr with
    | init =>
      refine ⟨?_, ?_, ?_⟩
      · simp [NewMachineManager]
      · intro vm hvm
        simp [NewMachineManager] at hvm
      · simp [NewMachineManager, counterValue]
    | next op _ ha ih => exact VmCountInv_step _ op ha.1 ha.2 ih
  exact hinv.2.2

/-- C16, at the node on which "vm1" and "vm2" were registered and "vm1" was stopped: the
counter and the map both stand at one. -/
theorem vmCounter_tracks_allVMs_witness :
    counterValue countExample.t Counter.vmCounter AttrSet.none =
      (countExample.allVMs.length : Int) ∧
    countExample.allVMs.length = 1 :=
  ⟨vmCounter_tracks_allVMs countExample
    ⟨⟨2, ["native", "v8"], ["X"]⟩, "NODE",
      ReachableBy.next (Op.stopMachine "vm1" quietStop)
        (ReachableBy.next (Op.warm (Except.ok ⟨"vm2", 1, 256, 7⟩))
          (ReachableBy.next (Op.warm (Except.ok ⟨"vm1", 1, 256, 0⟩)) ReachableBy.init
            ⟨rfl, trivial⟩)
          ⟨show mapGet [("vm1", 0)] "vm2" = none from by decide, trivial⟩)
        ⟨trivial, trivial⟩⟩,
    by decide⟩

/-! ## Hash binding -/

theorem publishMachineStopped_internalCache (m : MachineManager) (vm : runningFirecracker)
    (env : StopEnv) : (publishMachineStopped m vm env).1.internalCache = m.internalCache := by
  unfold publishMachineStopped
  cases vm.deployRequest with
  | none => simp
  | some dr =>
    by_cases hl : (TrimSpace dr.DecodedClaims.Subject).length > 0
    · cases hc : env.cloudEventErr vm.vmmID <;> simp [hl, hc]
    · simp [hl]

theorem StopMachine_internalCache (m : MachineManager) (vmID : String) (env : StopEnv) :
    (StopMachine m vmID env).1.internalCache = m.internalCache := by
  cases h : mapGet m.allVMs vmID with
  | none => rw [StopMachine_absent m vmID env h]
  | some p =>
    simp only [StopMachine, h]
    have hp := fun m0 vm0 => publishMachineStopped_internalCache m0 vm0 env
    repeat' split
    all_goals simp [MachineManager.add, MachineManager.setVM, hp]

theorem StopMachine_deployRequest (m : MachineManager) (vmID : String) (env : StopEnv)
    (q : Nat) :
    ((StopMachine m vmID env).1.vmAt q).deployRequest = (m.vmAt q).deployRequest := by
  cases h : mapGet m.allVMs vmID with
  | none => rw [StopMachine_absent m vmID env h]
  | some p =>
    unfold MachineManager.vmAt
    rw [(StopMachine_present m vmID env p h).2.2.1]
    by_cases hq : q = p
    · subst hq
      by_cases hl : q < m.heap.length
      · rw [getD_set_self _ _ _ hl]
        rfl
      · have hle : m.heap.length ≤ q := Nat.le_of_not_lt hl
        rw [List.getD_eq_default _ _ (by simpa using hle), List.getD_eq_default _ _ hle]
    · rw [getD_set_ne _ _ _ _ hq]

/-- What `DeployWorkload` does once the request is bound to the record and sent: it binds
trigger subscriptions, stops the machine, adds to counters. -/
theorem DeployWorkload_after_bind (Q : MachineManager → Prop) (m : MachineManager) (p : Nat)
    (request : agentapi.DeployRequest) (env : DeployEnv) (ns : String)
    (hmarshal : env.marshalErr = none) (hns : request.Namespace = some ns)
    (hsub : ∀ s subs, Q s → Q { s with vmsubz := mapSet s.vmsubz (m.vmAt p).vmmID subs })
    (hstop : ∀ s, Q s → Q (StopMachine s (m.vmAt p).vmmID env.stop).1)
    (hadd : ∀ s c v a, c ≠ Counter.vmCounter → Q s → Q (s.add c v a))
    (h : Q (bindDeployment m p request ns env.now)) :
    Q (DeployWorkload m p request env).1 := by
  unfold DeployWorkload
  simp only [hmarshal, hns]
  cases env.agent with
  | deadlineExceeded => exact h
  | failed e => exact h
  | malformed e => exact h
  | reply resp =>
    simp only
    by_cases hacc : resp.Accepted = true
    · simp only [hacc, Bool.not_true, Bool.false_eq_true, if_false]
      by_cases hsup : request.SupportsTriggerSubjects = true
      · simp only [hsup, if_true]
        have hst := subscribeTriggers_frame Q Q (m.vmAt p).vmmID env hsub hstop
          request.TriggerSubjects _ h
        split
        · rename_i m3 out heq
          exact hst.2 m3 out heq
        · rename_i m3 heq
          exact deployTelemetry_frame Q p request hadd m3 (hst.1 m3 heq)
      · simp only [hsup, Bool.false_eq_true, if_false]
        exact deployTelemetry_frame Q p request hadd _ h
    · simp only [hacc, Bool.not_false, if_true]
      have hst := hstop _ h
      split
      · rename_i m3 heq
        rw [heq] at hst
        exact hst
      · rename_i m3 out _ heq
        rw [heq] at hst
        split <;> exact hst

theorem DeployWorkload_records_request (m : MachineManager) (p : Nat)
    (request : agentapi.DeployRequest) (env : DeployEnv) (ns : String)
    (hmarshal : env.marshalErr = none) (hns : request.Namespace = some ns)
    (hp : p < m.heap.length) :
    ((DeployWorkload m p request env).1.vmAt p).deployRequest = some request ∧
    (DeployWorkload m p request env).1.internalCache = m.internalCache := by
  refine DeployWorkload_after_bind
    (fun s => (s.vmAt p).deployRequest = some request ∧ s.internalCache = m.internalCache)
    m p request env ns hmarshal hns (fun _ _ hs => hs)
    (fun s hs => ⟨by rw [StopMachine_deployRequest]; exact hs.1,
      by rw [StopMachine_internalCache]; exact hs.2⟩)
    (fun _ _ _ _ _ hs => hs) ?_
  constructor
  · simp only [bindDeployment, MachineManager.vmAt, MachineManager.setVM]
    rw [getD_set_self _ _ _ hp]
  · rfl


theorem int64OfUint64_small (n : Nat) (h : n < 2 ^ 63) : int64OfUint64 n = (n : Int) := by
  have h1 : n % 2 ^ 64 = n := Nat.mod_eq_of_lt (by omega)
  unfold int64OfUint64
  rw [h1, if_pos h]

theorem CacheWorkload_ok (m : MachineManager) (request : controlapi.DeployRequest)
    (env : CacheEnv) (workload : List Nat) (size : Nat)
    (hfetch : env.fetch request.JsDomain request.Location.Host
      (Trim request.Location.Path '/') = Except.ok workload)
    (hjs : env.jsInternalErr = none) (hcache : env.cacheErr = none)
    (hput : env.putBytes request.DecodedClaims.Subject workload = Except.ok size) :
    (CacheWorkload m request env).2 = CacheResult.ok size (env.sha256hex workload) ∧
    (CacheWorkload m request env).1.internalCache =
      mapSet m.internalCache request.DecodedClaims.Subject workload ∧
    (CacheWorkload m request env).1.warmVMs = m.warmVMs ∧
    (CacheWorkload m request env).1.heap = m.heap := by
  simp [CacheWorkload, hfetch, hjs, hcache, hput]

theorem handleDeployFrom197_binding (api : ApiListener) (env : DeployHandlerEnv) (ns : String)
    (request : controlapi.DeployRequest) (sent : List Envelope) (workload : List Nat)
    (size p : Nat) (rest : List Nat)
    (hfetch : env.cache.fetch request.JsDomain request.Location.Host
      (Trim request.Location.Path '/') = Except.ok workload)
    (hjs : env.cache.jsInternalErr = none) (hcache : env.cache.cacheErr = none)
    (hput : env.cache.putBytes request.DecodedClaims.Subject workload = Except.ok size)
    (hsize : size < 2 ^ 63)
    (hpool : api.mgr.warmVMs = p :: rest) (hp : p < api.mgr.heap.length)
    (hmarshal : env.deploy.marshalErr = none) :
    mapGet (handleDeployFrom197 api env ns request sent).mgr.internalCache
        request.DecodedClaims.Subject = some workload ∧
    ∃ dr, ((handleDeployFrom197 api env ns request sent).mgr.vmAt p).deployRequest = some dr ∧
      dr.Hash = env.cache.sha256hex workload ∧ dr.TotalBytes = (size : Int) ∧
      dr.DecodedClaims = request.DecodedClaims ∧ dr.Namespace = some ns := by
  obtain ⟨hres, hic, hwarm, hheap⟩ :=
    CacheWorkload_ok api.mgr request env.cache workload size hfetch hjs hcache hput
  cases hcw : CacheWorkload api.mgr request env.cache with
  | mk m1 res =>
    rw [hcw] at hres hic hwarm hheap
    simp only at hres hic hwarm hheap
    subst hres
    have hr : receiveWarm m1 = ({ m1 with warmVMs := rest }, Received.vm p) := by
      simp [receiveWarm, hwarm, hpool]
    have key := DeployWorkload_records_request { m1 with warmVMs := rest } p
      (agentRequest request ns size (env.cache.sha256hex workload)) env.deploy ns hmarshal rfl
      (by rw [← hheap] at hp; exact hp)
    simp only [handleDeployFrom197, hcw, hr]
    cases hdw : DeployWorkload { m1 with warmVMs := rest } p
        (agentRequest request ns size (env.cache.sha256hex workload)) env.deploy with
    | mk m3 out =>
      rw [hdw] at key
      simp only at key
      have hfin : mapGet m3.internalCache request.DecodedClaims.Subject = some workload ∧
          ∃ dr, (m3.vmAt p).deployRequest = some dr ∧
            dr.Hash = env.cache.sha256hex workload ∧ dr.TotalBytes = (size : Int) ∧
            dr.DecodedClaims = request.DecodedClaims ∧ dr.Namespace = some ns := by
        refine ⟨?_, agentRequest request ns size (env.cache.sha256hex workload), key.1, rfl,
          int64OfUint64_small size hsize, rfl, rfl⟩
        rw [key.2]
        show mapGet m1.internalCache request.DecodedClaims.Subject = some workload
        rw [hic]
        exact mapGet_mapSet_self _ _ _
      cases out with
      | nil =>
        simp only [key.1] at hfin ⊢
        exact hfin
      | err e => exact hfin
      | panicked => exact hfin

/-- C14. For a deploy that `handleDeploy` carries through to `DeployWorkload` (the subject and
the body decode, the type is accepted and passes the trigger gate, the claims validate, the
artifact is fetched and written to the internal cache, which reports a size below 2^63, a VM
is received from the pool and the request marshals), the request recorded on the VM and
sent to its agent has as `Hash` the digest of exactly the bytes written to the internal
cache under the subject of the claims, and as `TotalBytes` the size the cache reported. -/
theorem handleDeploy_hash_binding (api : ApiListener) (env : DeployHandlerEnv)
    (m : Msg controlapi.DeployRequest) (request : controlapi.DeployRequest) (ns wt : String)
    (claims : GenericClaims) (workload : List Nat) (size p : Nat) (rest : List Nat)
    (hsubject : extractNamespace m.Subject = (ns, none))
    (hdata : m.Data = Except.ok request)
    (htype : request.WorkloadType = some wt)
    (haccepted : wt ∈ api.config.WorkloadTypes)
    (hgate : (decide (request.TriggerSubjects.length > 0) &&
      (!EqualFold wt "v8" && !EqualFold wt "wasm")) = false)
    (hclaims : env.validate request = Except.ok claims)
    (hfetch : env.cache.fetch request.JsDomain request.Location.Host
      (Trim request.Location.Path '/') = Except.ok workload)
    (hjs : env.cache.jsInternalErr = none) (hcache : env.cache.cacheErr = none)
    (hput : env.cache.putBytes claims.Subject workload = Except.ok size)
    (hsize : size < 2 ^ 63)
    (hpool : api.mgr.warmVMs = p :: rest) (hp : p < api.mgr.heap.length)
    (hmarshal : env.deploy.marshalErr = none) :
    mapGet (handleDeploy api env m).mgr.internalCache claims.Subject = some workload ∧
    ∃ dr, ((handleDeploy api env m).mgr.vmAt p).deployRequest = some dr ∧
      dr.Hash = env.cache.sha256hex workload ∧ dr.TotalBytes = (size : Int) ∧
      dr.DecodedClaims = claims ∧ dr.Namespace = some ns := by
  have hcont : api.config.WorkloadTypes.contains wt = true := by
    simpa using haccepted
  obtain ⟨argv, desc, wtype, loc, js, ts, wenv, dc⟩ := request
  simp only at htype
  subst htype
  have hb := fun sent => handleDeployFrom197_binding api env ns
    ⟨argv, desc, some wt, loc, js, ts, wenv, claims⟩ sent workload size p rest hfetch hjs
    hcache hput hsize hpool hp hmarshal
  simp only [handleDeploy, hsubject, hdata, hcont, hgate, hclaims]
  simp only [Bool.not_true, Bool.false_eq_true, if_false]
  split
  · exact hb _
  · exact hb _

/-- C14, at the deploy of "echo" on the node with the warm VM "vm1": the bytes 1, 2, 3 are in
the internal cache under "echo", and the request on the VM carries their digest and the
size 3. -/
theorem handleDeploy_hash_binding_witness :
    mapGet (handleDeploy ⟨warmExample, warmExample.config⟩
        ⟨fun r => Except.ok r.DecodedClaims, exampleCache,
          exampleDeploy (AgentReply.reply ⟨true, none⟩)⟩
        ⟨"$NEX.DEPLOY.ns1.NODE", Except.ok exampleRequest⟩).mgr.internalCache "echo" =
      some [1, 2, 3] ∧
    ∃ dr, ((handleDeploy ⟨warmExample, warmExample.config⟩
        ⟨fun r => Except.ok r.DecodedClaims, exampleCache,
          exampleDeploy (AgentReply.reply ⟨true, none⟩)⟩
        ⟨"$NEX.DEPLOY.ns1.NODE", Except.ok exampleRequest⟩).mgr.vmAt 0).deployRequest =
        some dr ∧
      dr.Hash = "039058c6f2c0cb492c533b0a4d14ef77cc0f78abccced5287d84a1a2011cfb81" ∧
      dr.TotalBytes = ((3 : Nat) : Int) ∧
      dr.DecodedClaims = ⟨"echo", "Y", "00"⟩ ∧ dr.Namespace = some "ns1" :=
  handleDeploy_hash_binding ⟨warmExample, warmExample.config⟩
    ⟨fun r => Except.ok r.DecodedClaims, exampleCache,
      exampleDeploy (AgentReply.reply ⟨true, none⟩)⟩
    ⟨"$NEX.DEPLOY.ns1.NODE", Except.ok exampleRequest⟩ exampleRequest "ns1" "native"
    ⟨"echo", "Y", "00"⟩ [1, 2, 3] 3 0 []
    (by decide) rfl rfl (by decide) (by decide) rfl rfl rfl rfl rfl (by decide) (by decide)
    (by decide) rfl

end Nex
